import Mathlib

/-!
Verification of the CSOPESY multitasking-OS emulator core.

This file gives a shallow embedding of the emulator's core subsystems —
the main-memory frame table (`MainMemory.cpp`), the memory manager
(`MemoryManager.cpp`, with the lazy-admission variant of `allocateMemory`
from the second source variant of that file), the process instruction
interpreter (`Process.cpp`), the core worker loop (`Core.cpp`) and the
scheduler bookkeeping (`Scheduler.cpp`) — and proves properties of the
embedding corresponding to the specification's claims.

Machine integers are modelled as `Nat`/`Int` with explicit reductions
(`% 65536` for `uint16_t`, `% 256` for `uint8_t`, `% 2^32` for the
32-bit pattern an `int` prints as in a hex stream).  C++ maps with
default-constructed lookups are modelled as total functions with the
default in the codomain, or as association lists where the map size
matters.  C++ exceptions are modelled with `Except`, with the mutated
state returned alongside the error since mutations before a `throw`
persist.
-/

/-! ## Character and numeral utilities (mirroring std::stoi and stream output) -/

/-- Whitespace recognised by `std::isspace` in the default locale
(`std::stoi` skips leading whitespace). -/
def isSpaceC (c : Char) : Bool :=
  c = ' ' ∨ c = '\t' ∨ c = '\n' ∨ c = '\x0b' ∨ c = '\x0c' ∨ c = '\r'

/-- Numeric value of a hexadecimal digit character, or `none`. -/
def hexVal (c : Char) : Option Nat :=
  if '0' ≤ c ∧ c ≤ '9' then some (c.toNat - '0'.toNat)
  else if 'a' ≤ c ∧ c ≤ 'f' then some (c.toNat - 'a'.toNat + 10)
  else if 'A' ≤ c ∧ c ≤ 'F' then some (c.toNat - 'A'.toNat + 10)
  else none

/-- Whether `c` is a digit of the given base (bases 10 and 16 are used). -/
def isBaseDigit (base : Nat) (c : Char) : Bool :=
  match hexVal c with
  | some v => v < base
  | none => false

/-- Result of a call to `std::stoi` / `std::stoull`: a value, or one of the
two exceptions it can throw. -/
inductive StoiRes where
  | ok (v : Int)
  | invalid
  | outOfRange
deriving DecidableEq, Repr

/-- Fold a digit string into its value. -/
def digitsToNat (base : Nat) (ds : List Char) : Nat :=
  ds.foldl (fun a c => a * base + ((hexVal c).getD 0)) 0

/-- Parse the digit part of a `std::stoi` subject sequence (after sign
handling).  For base 16 an optional `0x`/`0X` prefix is consumed, but only
when a hex digit follows (otherwise the leading `0` alone is the subject
sequence, as in strtol).  At least one digit is required; the value must
fit in `int` (`std::stoi` throws `std::out_of_range` otherwise). -/
def stoiDigits (base : Nat) (neg : Bool) (cs : List Char) : StoiRes :=
  let cs' :=
    if base = 16 then
      match cs with
      | '0' :: x :: rest =>
        let headIsHex : Bool := match rest with
          | r :: _ => isBaseDigit 16 r
          | [] => false
        if (x = 'x' ∨ x = 'X') ∧ headIsHex then rest else cs
      | _ => cs
    else cs
  let ds := cs'.takeWhile (isBaseDigit base)
  if ds = [] then .invalid
  else
    let mag := digitsToNat base ds
    if neg then
      if mag > 2147483648 then .outOfRange else .ok (-(mag : Int))
    else
      if mag > 2147483647 then .outOfRange else .ok (mag : Int)

/-- `std::stoi(s, nullptr, base)`: skip whitespace, optional sign, digits. -/
def stoiBase (base : Nat) (s : String) : StoiRes :=
  match s.toList.dropWhile isSpaceC with
  | '+' :: rest => stoiDigits base false rest
  | '-' :: rest => stoiDigits base true rest
  | cs => stoiDigits base false cs

/-- `std::stoi(s, nullptr, 16)` as used by `MemoryManager::translate`. -/
def stoiHex (s : String) : StoiRes := stoiBase 16 s

/-- `std::stoi(s)` (base 10) as used by `Process::execute`'s `getValue`. -/
def stoiDec (s : String) : StoiRes := stoiBase 10 s

/-- Lowercase hexadecimal digits of `n` (most significant first), as a
stream prints with `std::hex`. -/
def toHexLower (n : Nat) : String := String.mk (Nat.toDigits 16 n)

/-- Uppercase hexadecimal rendering, as printed with
`std::hex << std::uppercase`. -/
def toHexUpper (n : Nat) : String := String.mk ((Nat.toDigits 16 n).map Char.toUpper)

/-- Pad a string on the left with `'0'` to width 4
(`std::setw(4) << std::setfill('0')`). -/
def padLeft4 (s : String) : String :=
  String.mk (List.replicate (4 - s.length) '0') ++ s

/-- `static_cast<uint16_t>` of a C++ `int` value. -/
def u16 (v : Int) : Nat := (Int.emod v 65536).toNat

/-- `static_cast<uint8_t>` of a `uint16_t` value. -/
def u8 (n : Nat) : Nat := n % 256

/-- The key string under which a physical word address is stored in
`MainMemory::memory`: `ss << "0x" << std::hex << std::uppercase << addr`
where `addr` is a C++ `int` (a negative `int` prints as its unsigned
32-bit pattern). -/
def physKey (addr : Int) : String :=
  "0x" ++ toHexUpper ((Int.emod addr 4294967296).toNat)

/-- Decimal rendering of a C++ `int` (`std::to_string`). -/
def decString (v : Int) : String := toString v

/-! ## Instructions and processes (`Process.h` / `Process.cpp`) -/

/-- `Process::Instruction`: an opcode (1 = DECLARE, 2 = ADD, 3 = SUB,
4 = PRINT, 5 = SLEEP, 6 = FOR, 7 = END, 8 = READ, 9 = WRITE) and string
arguments, exactly as in `Process.h`. -/
structure Instruction where
  opcode : Nat
  args : List String
deriving DecidableEq, Repr, Inhabited

/-- `Process::LoopState`: `startIns` is a `size_t`, `repeats` a
`uint16_t` (kept `< 65536`; the END handler decrements it with 16-bit
wraparound). -/
structure LoopState where
  startIns : Nat
  repeats : Nat
deriving DecidableEq, Repr, Inhabited

/-- `Process::TerminationReason`. -/
inductive TermReason where
  | RUNNING
  | FINISHED_NORMALLY
  | MEMORY_VIOLATION
deriving DecidableEq, Repr, Inhabited

/-- The per-process state of `Process.h`.  `pageTable_` and `validBits_`
are `std::unordered_map` keyed by `int`, modelled as total functions into
`Option`; `symbolTable_` is modelled as an association list because the
code branches on its `size()`.  Wall-clock timestamps attached to logs
and to the violation time are not modelled (only the log messages are);
`finishTime` is kept abstract as a `Nat` stamped by the scheduler. -/
structure Proc where
  pid : Nat
  allocatedMemory : Int
  pageTable : Int → Option Int
  validBits : Int → Option Bool
  symbolTable : List (String × String)
  symbolTableOffset : Nat
  insList : List Instruction
  insCount : Nat
  loopStack : List LoopState
  sleeping : Bool
  sleepTarget : Nat
  finished : Bool
  termination : TermReason
  violationAddress : String
  finishTime : Nat
  logs : List String

/-- A freshly constructed `Process` (the constructor in `Process.cpp`). -/
def Proc.new (pid : Nat) : Proc :=
  { pid := pid
    allocatedMemory := 0
    pageTable := fun _ => none
    validBits := fun _ => none
    symbolTable := []
    symbolTableOffset := 0
    insList := []
    insCount := 0
    loopStack := []
    sleeping := false
    sleepTarget := 0
    finished := false
    termination := .RUNNING
    violationAddress := ""
    finishTime := 0
    logs := [] }

instance : Inhabited Proc := ⟨Proc.new 0⟩

/-- `Process::setTerminationReason`: only acts while the process is still
RUNNING; a MEMORY_VIOLATION records the faulting address; any non-RUNNING
reason sets the finished flag. -/
def Proc.setTerminationReason (reason : TermReason) (addr : String) (p : Proc) : Proc :=
  if p.termination = .RUNNING then
    let p1 := { p with termination := reason }
    let p2 := if reason = .MEMORY_VIOLATION then { p1 with violationAddress := addr } else p1
    if reason ≠ .RUNNING then { p2 with finished := true } else p2
  else p

/-- Insert-or-assign on an association list, the behaviour of
`unordered_map::operator[] =`: an existing key keeps its position and the
map size; a fresh key grows the map by one. -/
def assocUpdate {α : Type} (k : String) (v : α) (l : List (String × α)) : List (String × α) :=
  if (l.lookup k).isSome then
    l.map (fun kv => if kv.fst = k then (k, v) else kv)
  else l ++ [(k, v)]

/-! ## Main memory (`MainMemory.cpp`) -/

/-- The state of `MainMemory`: a frame table of page-id tags, per-frame
valid bits, and the word map `memory` (an `unordered_map` from address
strings to `uint16_t`; `readMemory` of an absent key returns 0, so the
map is modelled as a total function with default 0). -/
structure MainMemorySt where
  totalFrames : Nat
  frameSize : Nat
  frameTable : List String
  validBits : List Bool
  memory : String → Nat

namespace MainMemory

/-- The `MainMemory(totalBytes, frameSize)` constructor. -/
def init (totalBytes frameSize : Nat) : MainMemorySt :=
  let totalFrames := totalBytes / frameSize
  { totalFrames := totalFrames
    frameSize := frameSize
    frameTable := List.replicate totalFrames ""
    validBits := List.replicate totalFrames false
    memory := fun _ => 0 }

/-- `MainMemory::getFreeFrameIndex`: lowest frame index whose valid bit is
false, or -1. -/
def getFreeFrameIndex (m : MainMemorySt) : Int :=
  match m.validBits.findIdx? (fun b => !b) with
  | some i => (i : Int)
  | none => -1

/-- `MainMemory::getUsedFrames`. -/
def getUsedFrames (m : MainMemorySt) : Nat :=
  m.validBits.countP (fun b => b)

/-- `MainMemory::getFreeFrames`. -/
def getFreeFrames (m : MainMemorySt) : Nat :=
  if getFreeFrameIndex m = -1 then 0 else m.totalFrames - getUsedFrames m

/-- `MainMemory::setFrame`. -/
def setFrame (index : Int) (pageId : String) (m : MainMemorySt) : MainMemorySt :=
  if 0 ≤ index ∧ index < (m.totalFrames : Int) then
    { m with frameTable := m.frameTable.set index.toNat pageId }
  else m

/-- `MainMemory::clearFrame`. -/
def clearFrame (index : Int) (m : MainMemorySt) : MainMemorySt :=
  if 0 ≤ index ∧ index < (m.totalFrames : Int) then
    { m with frameTable := m.frameTable.set index.toNat ""
             validBits := m.validBits.set index.toNat false }
  else m

/-- `MainMemory::markFrameValid`. -/
def markFrameValid (index : Int) (m : MainMemorySt) : MainMemorySt :=
  if 0 ≤ index ∧ index < (m.totalFrames : Int) then
    { m with validBits := m.validBits.set index.toNat true }
  else m

/-- `MainMemory::getPageAtFrame`. -/
def getPageAtFrame (index : Int) (m : MainMemorySt) : String :=
  if 0 ≤ index ∧ index < (m.totalFrames : Int) then
    m.frameTable.getD index.toNat ""
  else ""

/-- `MainMemory::readMemory` (absent keys read as 0). -/
def readMemory (address : String) (m : MainMemorySt) : Nat :=
  m.memory address

/-- `MainMemory::writeMemory`. -/
def writeMemory (address : String) (value : Nat) (m : MainMemorySt) : MainMemorySt :=
  { m with memory := fun a => if a = address then value else m.memory a }

/-- `MainMemory::dumpPageFromFrame`: parses the given base-address string
with `std::stoi(.., 16)` and reads `frameSize / 2` words at hex-formatted
keys `base + 2*i`.  Callers always pass a parseable string; a parse
failure is defaulted to base 0 here (in C++ it would throw out of the
call). -/
def dumpPageFromFrame (baseAddress : String) (m : MainMemorySt) : List Nat :=
  let base : Int := match stoiHex baseAddress with
    | .ok v => v
    | _ => 0
  (List.range (m.frameSize / 2)).map
    (fun i => readMemory (physKey (base + 2 * (i : Int))) m)

/-- `MainMemory::loadPageToFrame`: writes `data.size()` words starting at
the parsed base address. -/
def loadPageToFrame (data : List Nat) (baseAddress : String) (m : MainMemorySt) : MainMemorySt :=
  let base : Int := match stoiHex baseAddress with
    | .ok v => v
    | _ => 0
  (List.range data.length).foldl
    (fun (acc : MainMemorySt) (i : Nat) =>
      writeMemory (physKey (base + 2 * (i : Int))) (data.getD i 0) acc) m

/-- `MainMemory::freeFramesByPagePrefix`: clears every valid frame whose
tag starts with the given page-id stem and returns the freed indices in
ascending order. -/
def freeFramesByStem (stem : String) (m : MainMemorySt) : List Int × MainMemorySt :=
  (List.range m.frameTable.length).foldl
    (fun (acc : List Int × MainMemorySt) i =>
      let (freed, mm) := acc
      if mm.validBits.getD i false ∧ stem.isPrefixOf (mm.frameTable.getD i "") then
        (freed ++ [(i : Int)], clearFrame (i : Int) mm)
      else (freed, mm))
    ([], m)

end MainMemory

/-! ## Memory-manager and system state (`MemoryManager.cpp`) -/

/-- Errors thrown (`std::runtime_error` / map exceptions) on the memory
paths.  `invalidFormat` and `mav` are the two violations raised by
`translate`; `mapAt` is the `std::out_of_range` an `unordered_map::at`
miss would raise; `invalidArgument` is an uncaught
`std::invalid_argument` from `std::stoi` in `getValue`. -/
inductive CppErr where
  | invalidFormat
  | mav
  | mapAt
  | invalidArgument
deriving DecidableEq, Repr

deriving instance DecidableEq for Except

/-- The `MemoryManager` state: the owned `MainMemory`, the in-memory
backing store (`unordered_map<string, vector<uint16_t>>`, an association
list here), the FIFO frame queue (front at the head), the paging
counters, and its own copy of the frame size. -/
structure MMSt where
  mem : MainMemorySt
  backingStore : List (String × List Nat)
  fifo : List Int
  pagedIn : Nat
  pagedOut : Nat
  frameSize : Nat

/-- The whole system as the memory paths see it: the memory manager plus
every process (the scheduler's pid lookup used during eviction resolves
into this list). -/
structure SysState where
  mm : MMSt
  procs : List Proc

/-- `Scheduler::findProcessById`, defaulting to a dummy process for a pid
that does not exist (the C++ code always holds a live pointer). -/
def getProc (s : SysState) (pid : Nat) : Proc :=
  (s.procs.find? (fun p => p.pid == pid)).getD (Proc.new 0)

/-- Apply an update to the process with the given pid. -/
def updateProc (s : SysState) (pid : Nat) (f : Proc → Proc) : SysState :=
  { s with procs := s.procs.map (fun p => if p.pid == pid then f p else p) }

/-- Mark a termination reason on a process (the `setTerminationReason`
calls made from `MemoryManager::translate`). -/
def setTermination (s : SysState) (pid : Nat) (reason : TermReason) (addr : String) : SysState :=
  updateProc s pid (Proc.setTerminationReason reason addr)

namespace MemoryManager

/-- The backing-store page id `"p<pid>_page<n>"`. -/
def pageIdFor (pid : Nat) (pageNum : Int) : String :=
  "p" ++ toString pid ++ "_page" ++ toString pageNum

/-- Lookup in the backing store. -/
def bsLookup (pageId : String) (s : SysState) : Option (List Nat) :=
  s.mm.backingStore.lookup pageId

/-- Insert-or-assign in the backing store. -/
def bsInsert (pageId : String) (data : List Nat) (s : SysState) : SysState :=
  { s with mm := { s.mm with backingStore := assocUpdate pageId data s.mm.backingStore } }

/-- Split a character list at the first occurrence of `pat`, returning
the parts before and after it. -/
def breakOnSeq (pat : List Char) : List Char → Option (List Char × List Char)
  | [] => if pat = [] then some ([], []) else none
  | c :: rest =>
    if pat.isPrefixOf (c :: rest) then some ([], (c :: rest).drop pat.length)
    else
      match breakOnSeq pat rest with
      | some (pre, post) => some (c :: pre, post)
      | none => none

/-- The page-id parse performed at the top of `MemoryManager::evictPage`:
find the first `'p'`, find `"_page"`, `std::stoull` the pid digits and
`std::stoi` the page-number digits.  On the canonical ids produced by
`pageIdFor` the first `'p'` is at position 0 and the first `"_page"`
occurrence delimits the pid. -/
def parsePageId (pageId : String) : Option (Nat × Int) :=
  match breakOnSeq ("_page".toList) pageId.toList with
  | some (pidPart, numPart) =>
    match pidPart with
    | 'p' :: ds =>
      match stoiDigits 10 false ds, stoiDigits 10 false numPart with
      | .ok pv, .ok nv => some (pv.toNat, nv)
      | _, _ => none
    | _ => none
  | none => none

/-- `MemoryManager::evictPage` (first variant of `MemoryManager.cpp`):
identify the resident page, invalidate the owner's valid bit via the
scheduler lookup, dump the frame using the base-address string
`"0x" + std::to_string(index * frameSize)` (decimal digits later parsed
as hex by `dumpPageFromFrame`), store the dump in the backing store,
clear the frame and count a page-out.  The append-only text log written
by `writeToBackingStore` is diagnostic only and not modelled. -/
def evictPage (index : Int) (s : SysState) : SysState :=
  let pageId := MainMemory.getPageAtFrame index s.mm.mem
  if pageId = "" then s
  else
    let s1 :=
      match parsePageId pageId with
      | some (ownerPid, pageNum) =>
        updateProc s ownerPid (fun p =>
          { p with validBits := fun k => if k = pageNum then some false else p.validBits k })
      | none => s
    let baseAddr := "0x" ++ decString (index * (s1.mm.frameSize : Int))
    let data := MainMemory.dumpPageFromFrame baseAddr s1.mm.mem
    let s2 := bsInsert pageId data s1
    let s3 := { s2 with mm := { s2.mm with mem := MainMemory.clearFrame index s2.mm.mem } }
    { s3 with mm := { s3.mm with pagedOut := s3.mm.pagedOut + 1 } }

/-- `MemoryManager::getVictimFrame_FIFO`: pop the queue head, or -1. -/
def getVictimFrameFIFO (s : SysState) : Int × SysState :=
  match s.mm.fifo with
  | [] => (-1, s)
  | v :: rest => (v, { s with mm := { s.mm with fifo := rest } })

/-- The frame-acquisition phase of `MemoryManager::handlePageFault`
(first variant of `MemoryManager.cpp`): take the lowest free frame;
failing that, pop the FIFO victim and evict it.  Returns `-1` and the
(possibly popped) state when no frame could be obtained. -/
def acquireFrame (s : SysState) : Int × SysState :=
  let freeIdx := MainMemory.getFreeFrameIndex s.mm.mem
  if freeIdx = -1 then
    let (victim, sv) := getVictimFrameFIFO s
    if victim ≠ -1 then (victim, evictPage victim sv) else (-1, sv)
  else (freeIdx, s)

/-- The installation phase of `MemoryManager::handlePageFault`: load the
backing-store page into the acquired frame (base-address string built
with `std::to_string`, i.e. decimal digits), tag and validate the
frame, update the faulting process's page table and valid bit, push the
frame on the FIFO tail and count a page-in. -/
def installPage (pid : Nat) (pageNum : Int) (frameIndex : Int) (s1 : SysState) : SysState :=
  let pageId := pageIdFor pid pageNum
  let baseAddr := "0x" ++ decString (frameIndex * (s1.mm.frameSize : Int))
  let s2 :=
    match bsLookup pageId s1 with
    | some data =>
      { s1 with mm := { s1.mm with mem := MainMemory.loadPageToFrame data baseAddr s1.mm.mem } }
    | none => s1
  let s3 :=
    { s2 with mm := { s2.mm with
        mem := MainMemory.markFrameValid frameIndex
                 (MainMemory.setFrame frameIndex pageId s2.mm.mem) } }
  let s4 := updateProc s3 pid (fun p =>
    { p with pageTable := fun k => if k = pageNum then some frameIndex else p.pageTable k
             validBits := fun k => if k = pageNum then some true else p.validBits k })
  let s5 := { s4 with mm := { s4.mm with fifo := s4.mm.fifo ++ [frameIndex] } }
  { s5 with mm := { s5.mm with pagedIn := s5.mm.pagedIn + 1 } }

/-- `MemoryManager::handlePageFault` (first variant of
`MemoryManager.cpp`): acquire a frame (free scan, then FIFO eviction)
and install the page into it.  When no frame can be obtained the
function silently does nothing. -/
def handlePageFault (pid : Nat) (pageNum : Int) (s : SysState) : SysState :=
  let (frameIndex, s1) := acquireFrame s
  if frameIndex ≠ -1 then installPage pid pageNum frameIndex s1
  else s1

/-- `MemoryManager::translate` (first variant of `MemoryManager.cpp`):
parse the logical address with `std::stoi(.., 16)` (any exception marks a
memory violation), bounds-check `addr < 0 || addr >= allocatedMemory`
(marking a violation), then resolve the page through the fault path and
return `(frameIndex, offset)` read from the page table with `at` (a miss
raises `std::out_of_range`, modelled as `mapAt`). -/
def translate (logicalAddr : String) (pid : Nat) (s : SysState) :
    Except CppErr (Int × Int) × SysState :=
  match stoiHex logicalAddr with
  | .ok addr =>
    if addr < 0 ∨ addr ≥ (getProc s pid).allocatedMemory then
      (.error .mav, setTermination s pid .MEMORY_VIOLATION logicalAddr)
    else
      let a := addr.toNat
      let pageNum : Int := (a / s.mm.frameSize : Nat)
      let offset : Int := (a % s.mm.frameSize : Nat)
      let p := getProc s pid
      let needsFault := ((p.validBits pageNum).getD false) = false
      let s1 := if needsFault then handlePageFault pid pageNum s else s
      match (getProc s1 pid).pageTable pageNum with
      | some frameIndex => (.ok (frameIndex, offset), s1)
      | none => (.error .mapAt, s1)
  | _ =>
    (.error .invalidFormat, setTermination s pid .MEMORY_VIOLATION logicalAddr)

/-- `MemoryManager::read`: translate, then read the word at
`frame * frameSize + offset` under its uppercase-hex key. -/
def read (addr : String) (pid : Nat) (s : SysState) : Except CppErr Nat × SysState :=
  match translate addr pid s with
  | (.ok (frame, offset), s1) =>
    (.ok (MainMemory.readMemory (physKey (frame * (s1.mm.frameSize : Int) + offset)) s1.mm.mem), s1)
  | (.error e, s1) => (.error e, s1)

/-- `MemoryManager::write`. -/
def write (addr : String) (value : Nat) (pid : Nat) (s : SysState) :
    Except CppErr Unit × SysState :=
  match translate addr pid s with
  | (.ok (frame, offset), s1) =>
    (.ok (),
      { s1 with mm := { s1.mm with
          mem := MainMemory.writeMemory (physKey (frame * (s1.mm.frameSize : Int) + offset))
                   value s1.mm.mem } })
  | (.error e, s1) => (.error e, s1)

/-- Initialize `count` page-table entries to the not-resident sentinel
(the `for` loop in `allocateMemory`). -/
def initPages (count : Nat) (p : Proc) : Proc :=
  match count with
  | 0 => p
  | k + 1 =>
    let p1 := initPages k p
    { p1 with
      pageTable := fun j => if j = (k : Int) then some (-1) else p1.pageTable j
      validBits := fun j => if j = (k : Int) then some false else p1.validBits j }

/-- Create `count` zero-filled backing-store pages of `words` words each
(the second `for` loop in `allocateMemory`). -/
def initBackingPages (pid : Nat) (words : Nat) (count : Nat) (s : SysState) : SysState :=
  match count with
  | 0 => s
  | k + 1 => bsInsert (pageIdFor pid (k : Int)) (List.replicate words 0) (initBackingPages pid words k s)

/-- `MemoryManager::allocateMemory`, first variant of
`MemoryManager.cpp`: rejects the request when the pages required exceed
the free frames, else records the allocation, initializes the page
table, and creates one zero page of `frameSize` *words* per page. -/
def allocateMemory (pid : Nat) (requestedBytes : Int) (s : SysState) : Bool × SysState :=
  let pagesRequired : Int := (requestedBytes + (s.mm.frameSize : Int) - 1) / (s.mm.frameSize : Int)
  if pagesRequired > (MainMemory.getFreeFrames s.mm.mem : Int) then
    (false, s)
  else
    let s1 := updateProc s pid (fun p => { p with allocatedMemory := requestedBytes })
    let s2 := updateProc s1 pid (initPages pagesRequired.toNat)
    (true, initBackingPages pid s2.mm.frameSize pagesRequired.toNat s2)

/-- `MemoryManager::deallocate` (first variant): free every frame tagged
with the process's page-id stem and rebuild the FIFO queue without the
freed frames. -/
def deallocate (pid : Nat) (s : SysState) : SysState :=
  let stem := "p" ++ toString pid ++ "_page"
  let (freedFrames, mem') := MainMemory.freeFramesByStem stem s.mm.mem
  if freedFrames = [] then s
  else
    { s with mm := { s.mm with
        mem := mem'
        fifo := s.mm.fifo.filter (fun f => ¬ f ∈ freedFrames) } }

end MemoryManager

/-! ## The lazy-admission `allocateMemory` (second variant of `MemoryManager.cpp`) -/

namespace MemoryManagerLazy

/-- `MemoryManager::allocateMemory` in the lazy-admission variant of
`MemoryManager.cpp`: the free-frame admission check is removed (the
commented-out block in the source); the allocation always succeeds,
initializing the page table and creating one zero page of
`frameSize / 2` words per page. -/
def allocateMemory (pid : Nat) (requestedBytes : Int) (s : SysState) : Bool × SysState :=
  let pagesRequired : Int := (requestedBytes + (s.mm.frameSize : Int) - 1) / (s.mm.frameSize : Int)
  let s1 := updateProc s pid (fun p => { p with allocatedMemory := requestedBytes })
  let s2 := updateProc s1 pid (MemoryManager.initPages pagesRequired.toNat)
  (true, MemoryManager.initBackingPages pid (s2.mm.frameSize / 2) pagesRequired.toNat s2)

end MemoryManagerLazy

/-- `isPowerOfTwo` from `Console.h`. -/
def isPowerOfTwo (n : Int) : Bool :=
  n > 0 ∧ (n.toNat &&& (n.toNat - 1)) = 0

/-- `isValidMemorySize` from `Console.h`: a power of two in `[64, 65536]`. -/
def isValidMemorySize (size : Int) : Bool :=
  isPowerOfTwo size ∧ 64 ≤ size ∧ size ≤ 65536

/-! ## The instruction interpreter (`Process.cpp`) -/

/-- The `clamp` lambda in `Process::execute`: saturate an `int64_t` value
into `uint16_t`. -/
def clamp (val : Int) : Nat :=
  if val < 0 then 0 else if val > 65535 then 65535 else val.toNat

/-- The numeric-literal test at the top of `getValue`:
`isdigit(token[0]) || (token[0] == '-' && token.size() > 1)` (indexing an
empty `std::string` at 0 yields `'\0'`, so an empty token takes the
identifier branch). -/
def tokenNumericLed (token : String) : Bool :=
  match token.toList with
  | c :: rest => c.isDigit ∨ (c = '-' ∧ rest ≠ [])
  | [] => false

/-- The `getValue` lambda in `Process::execute`: a numeric-led token is
parsed with `std::stoi` and cast to `uint16_t` (`std::out_of_range` is
caught and yields 0; an uncaught `std::invalid_argument` propagates);
an identifier found in the symbol table is read through the memory
manager (which may fault or violate); an unknown identifier yields 0. -/
def getValue (token : String) (pid : Nat) (s : SysState) : Except CppErr Nat × SysState :=
  if tokenNumericLed token then
    match stoiDec token with
    | .ok v => (.ok (u16 v), s)
    | .outOfRange => (.ok 0, s)
    | .invalid => (.error .invalidArgument, s)
  else
    match (getProc s pid).symbolTable.lookup token with
    | some address => MemoryManager.read address pid s
    | none => (.ok 0, s)

/-- The PRINT argument fold in `Process::execute`: arguments naming
symbol-table entries contribute `std::to_string(getValue(arg))`, other
arguments contribute themselves verbatim. -/
def printFold (args : List String) (pid : Nat) (s : SysState) (acc : String) :
    Except CppErr String × SysState :=
  match args with
  | [] => (.ok acc, s)
  | a :: rest =>
    if ((getProc s pid).symbolTable.lookup a).isSome then
      match getValue a pid s with
      | (.ok v, s1) => printFold rest pid s1 (acc ++ toString v)
      | (.error e, s1) => (.error e, s1)
    else printFold rest pid s (acc ++ a)

/-- `Process::execute`: the if-else chain over the nine opcodes.  State
mutations made before a memory exception persist (the exception
propagates out of `execute`), hence the returned state accompanies the
error.  `tick` is the value of the global tick counter
(`globalCpuTicks`) read by the SLEEP case. -/
def executeIns (tick : Nat) (ins : Instruction) (pid : Nat) (s : SysState) :
    Except CppErr Unit × SysState :=
  if ins.opcode = 1 ∧ ins.args.length ≥ 1 then -- DECLARE
    let p := getProc s pid
    if p.symbolTable.length ≥ 32 then
      (.ok (), updateProc s pid (fun q =>
        { q with logs := q.logs ++ ["[Warning] Symbol table full. DECLARE ignored."] }))
    else
      let varName := ins.args.getD 0 ""
      let logicalAddress := "0x" ++ padLeft4 (toHexLower p.symbolTableOffset)
      let s1 := updateProc s pid (fun q =>
        { q with symbolTable := assocUpdate varName logicalAddress q.symbolTable
                 symbolTableOffset := q.symbolTableOffset + 2 })
      if ins.args.length = 2 then
        match getValue (ins.args.getD 1 "") pid s1 with
        | (.ok v, s2) => MemoryManager.write logicalAddress (clamp (v : Int)) pid s2
        | (.error e, s2) => (.error e, s2)
      else (.ok (), s1)
  else if ins.opcode = 2 ∧ ins.args.length = 3 then -- ADD
    let destVar := ins.args.getD 0 ""
    match getValue (ins.args.getD 1 "") pid s with
    | (.error e, s1) => (.error e, s1)
    | (.ok a, s1) =>
      match getValue (ins.args.getD 2 "") pid s1 with
      | (.error e, s2) => (.error e, s2)
      | (.ok b, s2) =>
        match (getProc s2 pid).symbolTable.lookup destVar with
        | some destAddr => MemoryManager.write destAddr (clamp ((a : Int) + (b : Int))) pid s2
        | none => (.ok (), s2)
  else if ins.opcode = 3 ∧ ins.args.length = 3 then -- SUB
    let destVar := ins.args.getD 0 ""
    match getValue (ins.args.getD 1 "") pid s with
    | (.error e, s1) => (.error e, s1)
    | (.ok a, s1) =>
      match getValue (ins.args.getD 2 "") pid s1 with
      | (.error e, s2) => (.error e, s2)
      | (.ok b, s2) =>
        match (getProc s2 pid).symbolTable.lookup destVar with
        | some destAddr => MemoryManager.write destAddr (clamp ((a : Int) - (b : Int))) pid s2
        | none => (.ok (), s2)
  else if ins.opcode = 4 then -- PRINT
    match printFold ins.args pid s "" with
    | (.ok out, s1) =>
      (.ok (), updateProc s1 pid (fun q => { q with logs := q.logs ++ [out] }))
    | (.error e, s1) => (.error e, s1)
  else if ins.opcode = 5 ∧ ins.args.length = 1 then -- SLEEP
    match getValue (ins.args.getD 0 "") pid s with
    | (.ok v, s1) =>
      let ticks := u8 v
      (.ok (), updateProc s1 pid (fun q =>
        { q with sleeping := true, sleepTarget := tick + ticks, insCount := q.insCount + 1 }))
    | (.error e, s1) => (.error e, s1)
  else if ins.opcode = 6 ∧ ins.args.length = 1 then -- FOR
    match getValue (ins.args.getD 0 "") pid s with
    | (.ok v, s1) =>
      let repeatCount := if v > 1000 then 1000 else v
      if (getProc s1 pid).loopStack.length ≥ 3 then (.ok (), s1)
      else
        (.ok (), updateProc s1 pid (fun q =>
          { q with loopStack := ⟨q.insCount + 1, repeatCount⟩ :: q.loopStack }))
    | (.error e, s1) => (.error e, s1)
  else if ins.opcode = 7 then -- END
    match (getProc s pid).loopStack with
    | [] =>
      (.ok (), updateProc s pid (fun q =>
        { q with logs := q.logs ++ ["[Error] END without matching FOR!"] }))
    | top :: rest =>
      -- `currentLoop.repeats--` on a `uint16_t` wraps at 0.
      let r' := (top.repeats + 65535) % 65536
      if r' > 0 then
        -- `insCount_ = startIns - 1`; `startIns` is positive in every
        -- reachable state (it was set to a pc successor by FOR).
        (.ok (), updateProc s pid (fun q =>
          { q with loopStack := ⟨top.startIns, r'⟩ :: rest
                   insCount := top.startIns - 1 }))
      else (.ok (), updateProc s pid (fun q => { q with loopStack := rest }))
  else if ins.opcode = 8 ∧ ins.args.length = 2 then -- READ
    let varName := ins.args.getD 0 ""
    let sourceAddress := ins.args.getD 1 ""
    if ((getProc s pid).symbolTable.lookup varName).isSome then
      match MemoryManager.read sourceAddress pid s with
      | (.ok value, s1) =>
        match (getProc s1 pid).symbolTable.lookup varName with
        | some destAddress => MemoryManager.write destAddress value pid s1
        | none => (.ok (), s1)
      | (.error e, s1) => (.error e, s1)
    else (.ok (), s)
  else if ins.opcode = 9 ∧ ins.args.length = 2 then -- WRITE
    match getValue (ins.args.getD 1 "") pid s with
    | (.ok value, s1) => MemoryManager.write (ins.args.getD 0 "") value pid s1
    | (.error e, s1) => (.error e, s1)
  else (.ok (), s)

/-- `Process::runOneInstruction`: returns `false` without work when the
process is finished or still sleeping; wakes an expired sleeper in place;
marks normal completion when the pc has reached the end; otherwise
executes the current instruction, advances the pc unless the instruction
set the sleeping flag, and re-checks completion.  A memory exception
escapes the call (`some` error) with the mutated state. -/
def runOneInstruction (tick : Nat) (pid : Nat) (s : SysState) :
    Bool × SysState × Option CppErr :=
  let p := getProc s pid
  if p.finished then (false, s, none)
  else
    let (proceed, s0) :=
      if p.sleeping then
        if tick ≥ p.sleepTarget then
          (true, updateProc s pid (fun q => { q with sleeping := false, sleepTarget := 0 }))
        else (false, s)
      else (true, s)
    if proceed = false then (false, s0, none)
    else
      let p0 := getProc s0 pid
      if p0.insCount ≥ p0.insList.length then
        (false, setTermination s0 pid .FINISHED_NORMALLY "", none)
      else
        match executeIns tick (p0.insList.getD p0.insCount default) pid s0 with
        | (.error e, s1) => (false, s1, some e)
        | (.ok _, s1) =>
          let p1 := getProc s1 pid
          if p1.finished then (false, s1, none)
          else
            let s2 :=
              if ¬ p1.sleeping then
                updateProc s1 pid (fun q => { q with insCount := q.insCount + 1 })
              else s1
            let p2 := getProc s2 pid
            let s3 :=
              if p2.insCount ≥ p2.insList.length then
                setTermination s2 pid .FINISHED_NORMALLY ""
              else s2
            (true, s3, none)

/-! ## Scheduler bookkeeping (`Scheduler.cpp`) -/

/-- The scheduler's queue-discipline state: processes are referred to by
pid.  `finishedPIDs` models the `std::unordered_set` guarding double
insertion. -/
structure SchedState where
  sys : SysState
  readyQueue : List Nat
  sleepingList : List Nat
  finishedList : List Nat
  finishedPIDs : List Nat
  activeCount : Int

namespace Scheduler

/-- `Scheduler::requeueProcess`: a sleeping process goes to the sleeping
list, otherwise to the back of the ready queue. -/
def requeueProcess (pid : Nat) (st : SchedState) : SchedState :=
  if (getProc st.sys pid).sleeping then
    { st with sleepingList := st.sleepingList ++ [pid] }
  else { st with readyQueue := st.readyQueue ++ [pid] }

/-- `Scheduler::addFinishedProcess`: guarded by
`finishedPIDs_.insert(p->getPid()).second` — only a pid not yet present
stamps the finish time (`now` stands for `time(nullptr)`), deallocates
the process's memory, appends to the finished list and decrements the
active-process count. -/
def addFinishedProcess (now : Nat) (pid : Nat) (st : SchedState) : SchedState :=
  if pid ∈ st.finishedPIDs then st
  else
    let sys1 := updateProc st.sys pid (fun p => { p with finishTime := now })
    let sys2 := MemoryManager.deallocate pid sys1
    { st with
      finishedPIDs := pid :: st.finishedPIDs
      sys := sys2
      finishedList := st.finishedList ++ [pid]
      activeCount := st.activeCount - 1 }

end Scheduler

/-! ## The core worker loop (`Core.cpp`) -/

namespace Core

/-- The `while` loop of `Core::workerLoop`, with `remaining` the fuel
`quantum - executed`.  The `busy_` flag is modelled as constantly true
(no concurrent `stop()` request); the loop body checks the sleep flag
(requeue and break), runs one instruction (break when it reports no
work, or on a caught memory exception), then advances the global tick.
Returns the number of instructions executed and the resulting state. -/
def workerAux (pid : Nat) (tick : Nat) (st : SchedState) (remaining : Nat) :
    Nat × SchedState :=
  match remaining with
  | 0 => (0, st)
  | r + 1 =>
    let p := getProc st.sys pid
    if p.finished then (0, st)
    else if p.sleeping then (0, Scheduler.requeueProcess pid st)
    else
      match runOneInstruction tick pid st.sys with
      | (true, sys1, none) =>
        let (n, st1) := workerAux pid (tick + 1) { st with sys := sys1 } r
        (n + 1, st1)
      | (_, sys1, _) => (0, { st with sys := sys1 })

/-- `Core::workerLoop`: run up to `quantum` instructions, then dispose of
the process — a finished process is handed to `addFinishedProcess`, a
process whose quantum is exhausted is requeued, and otherwise the in-loop
disposition (sleep requeue or terminated-by-violation) already happened. -/
def workerLoop (pid : Nat) (quantum : Nat) (tick now : Nat) (st : SchedState) :
    Nat × SchedState :=
  let (executed, st1) := workerAux pid tick st quantum
  let p := getProc st1.sys pid
  if p.finished then (executed, Scheduler.addFinishedProcess now pid st1)
  else if executed ≥ quantum then (executed, Scheduler.requeueProcess pid st1)
  else (executed, st1)

end Core

/-! ## Test-harness state builders -/

/-- A freshly initialized system, as `Console::handleCommand`'s
`initialize` branch builds it: a `MainMemory(totalBytes, frameSize)`, an
empty backing store and FIFO queue, and a set of constructed processes. -/
def initSys (totalBytes frameSize : Nat) (pids : List Nat) : SysState :=
  { mm := { mem := MainMemory.init totalBytes frameSize
            backingStore := []
            fifo := []
            pagedIn := 0
            pagedOut := 0
            frameSize := frameSize }
    procs := pids.map Proc.new }

/-- Install a program on a process (the result of
`Process::loadInstructionsFromString` on a parsed script). -/
def withProgram (pid : Nat) (prog : List Instruction) (s : SysState) : SysState :=
  updateProc s pid (fun p => { p with insList := prog })

/-- Drive one process with `runOneInstruction` for at most `fuel` steps
(stopping at a finished process, a no-work step or an escaped exception),
counting the steps that executed an instruction whose index lay in
`[lo, hi)`.  The tick counter advances by one per step, as the core's
worker does. -/
def runCount (tick fuel : Nat) (pid lo hi : Nat) (s : SysState) : SysState × Nat :=
  match fuel with
  | 0 => (s, 0)
  | f + 1 =>
    let p := getProc s pid
    if p.finished then (s, 0)
    else
      let executedIdx := p.insCount
      match runOneInstruction tick pid s with
      | (true, s1, none) =>
        let (s2, n) := runCount (tick + 1) f pid lo hi s1
        (s2, n + (if lo ≤ executedIdx ∧ executedIdx < hi then 1 else 0))
      | (_, s1, _) => (s1, 0)

/-! ## Infrastructure lemmas about the state model -/

/-- Whether a process with the given pid exists in the system. -/
def hasPid (s : SysState) (pid : Nat) : Bool :=
  (s.procs.find? (fun p => p.pid == pid)).isSome

theorem bool_ne_true {b : Bool} (h : b = false) : ¬ (b = true) := by
  rw [h]; simp

theorem lookup_cons {α : Type} (k a : String) (b : α) (t : List (String × α)) :
    List.lookup k ((a, b) :: t) = if k = a then some b else List.lookup k t := by
  by_cases h : k = a
  · simp [List.lookup, h]
  · simp [List.lookup, beq_eq_false_iff_ne.mpr h, h]

theorem map_replace_id {α : Type} (k : String) (v : α) :
    ∀ t : List (String × α), (t.lookup k).isSome = false →
      t.map (fun kv => if kv.fst = k then (k, v) else kv) = t := by
  intro t
  induction t with
  | nil => intro _; rfl
  | cons kv t ih =>
    obtain ⟨a, b⟩ := kv
    intro h
    rw [lookup_cons] at h
    by_cases hka : k = a
    · rw [if_pos hka] at h; simp at h
    · rw [if_neg hka] at h
      have : (if a = k then ((k, v) : String × α) else (a, b)) = (a, b) :=
        if_neg (fun hh => hka hh.symm)
      rw [List.map_cons, this, ih h]

theorem assocUpdate_lookup_self {α : Type} (k : String) (v : α) :
    ∀ l : List (String × α), (assocUpdate k v l).lookup k = some v := by
  intro l
  induction l with
  | nil => simp [assocUpdate, List.lookup]
  | cons kv t ih =>
    obtain ⟨a, b⟩ := kv
    by_cases hak : k = a
    · subst hak
      simp [assocUpdate, lookup_cons]
    · have hne : (if a = k then ((k, v) : String × α) else (a, b)) = (a, b) :=
        if_neg (fun h => hak h.symm)
      by_cases hc : (t.lookup k).isSome
      · have hcond : ((((a, b) :: t).lookup k).isSome) = true := by
          rw [lookup_cons, if_neg hak]; exact hc
        unfold assocUpdate at ih ⊢
        rw [if_pos hcond]
        rw [if_pos hc] at ih
        rw [List.map_cons, hne, lookup_cons, if_neg hak]
        exact ih
      · have hcf : (t.lookup k).isSome = false := Bool.eq_false_iff.mpr hc
        have hcond : ((((a, b) :: t).lookup k).isSome) = false := by
          rw [lookup_cons, if_neg hak]; exact hcf
        unfold assocUpdate at ih ⊢
        rw [if_neg (bool_ne_true hcond)]
        rw [if_neg (bool_ne_true hcf)] at ih
        rw [List.cons_append, lookup_cons, if_neg hak]
        exact ih

theorem assocUpdate_lookup_ne {α : Type} (k k' : String) (v : α) (hne : k' ≠ k) :
    ∀ l : List (String × α), (assocUpdate k v l).lookup k' = l.lookup k' := by
  intro l
  induction l with
  | nil => simp [assocUpdate, List.lookup, beq_eq_false_iff_ne.mpr hne]
  | cons kv t ih =>
    obtain ⟨a, b⟩ := kv
    by_cases hak : k = a
    · subst hak
      have hcond : ((((k, b) :: t).lookup k).isSome) = true := by
        rw [lookup_cons, if_pos rfl]; rfl
      unfold assocUpdate at ih ⊢
      rw [if_pos hcond, List.map_cons, if_pos rfl, lookup_cons, lookup_cons, if_neg hne, if_neg hne]
      by_cases hc : (t.lookup k).isSome
      · rw [if_pos hc] at ih; exact ih
      · have hcf : (t.lookup k).isSome = false := Bool.eq_false_iff.mpr hc
        rw [map_replace_id k v t hcf]
    · have hrepl : (if a = k then ((k, v) : String × α) else (a, b)) = (a, b) :=
        if_neg (fun h => hak h.symm)
      by_cases hc : (t.lookup k).isSome
      · have hcond : ((((a, b) :: t).lookup k).isSome) = true := by
          rw [lookup_cons, if_neg hak]; exact hc
        unfold assocUpdate at ih ⊢
        rw [if_pos hcond]
        rw [if_pos hc] at ih
        rw [List.map_cons, hrepl, lookup_cons, lookup_cons]
        by_cases hka : k' = a
        · rw [if_pos hka, if_pos hka]
        · rw [if_neg hka, if_neg hka]; exact ih
      · have hcf : (t.lookup k).isSome = false := Bool.eq_false_iff.mpr hc
        have hcond : ((((a, b) :: t).lookup k).isSome) = false := by
          rw [lookup_cons, if_neg hak]; exact hcf
        unfold assocUpdate at ih ⊢
        rw [if_neg (bool_ne_true hcond)]
        rw [if_neg (bool_ne_true hcf)] at ih
        rw [List.cons_append, lookup_cons, lookup_cons]
        by_cases hka : k' = a
        · rw [if_pos hka, if_pos hka]
        · rw [if_neg hka, if_neg hka]; exact ih

theorem find?_map_of_pred_comm (g : Proc → Proc) (pred : Proc → Bool)
    (hg : ∀ p, pred (g p) = pred p) :
    ∀ l : List Proc, (l.map g).find? pred = (l.find? pred).map g := by
  intro l
  induction l with
  | nil => simp
  | cons p t ih =>
    by_cases hp : pred p = true
    · rw [List.map_cons, List.find?_cons_of_pos _ (by rw [hg]; exact hp),
        List.find?_cons_of_pos _ hp]
      rfl
    · rw [List.map_cons, List.find?_cons_of_neg _ (by rw [hg]; simpa using hp),
        List.find?_cons_of_neg _ (by simpa using hp), ih]

theorem getProc_pid {s : SysState} {pid : Nat} (hmem : hasPid s pid = true) :
    (getProc s pid).pid = pid := by
  unfold hasPid at hmem
  unfold getProc
  cases hfind : s.procs.find? (fun p => p.pid == pid) with
  | none => rw [hfind] at hmem; simp at hmem
  | some p =>
    have h2 := List.find?_some hfind
    simp only [Option.getD_some]
    exact eq_of_beq h2

theorem getProc_updateProc (s : SysState) (q pid : Nat) (f : Proc → Proc)
    (hf : ∀ p, (f p).pid = p.pid) :
    getProc (updateProc s q f) pid
      = if ((getProc s pid).pid == q) ∧ hasPid s pid then f (getProc s pid)
        else getProc s pid := by
  have hcomm : ∀ p : Proc,
      (fun r => r.pid == pid) ((fun p => if p.pid == q then f p else p) p)
        = (fun r => r.pid == pid) p := by
    intro p
    by_cases h : (p.pid == q) = true <;> simp [h, hf]
  unfold getProc updateProc hasPid
  rw [find?_map_of_pred_comm _ _ hcomm]
  cases hfind : s.procs.find? (fun p => p.pid == pid) with
  | none => simp
  | some p => simp

theorem getProc_proj_updateProc {β : Type} (proj : Proc → β) (s : SysState) (q pid : Nat)
    (f : Proc → Proc) (hf : ∀ p, (f p).pid = p.pid) (hproj : ∀ p, proj (f p) = proj p) :
    proj (getProc (updateProc s q f) pid) = proj (getProc s pid) := by
  rw [getProc_updateProc s q pid f hf]
  split
  · exact hproj _
  · rfl

theorem hasPid_updateProc (s : SysState) (q pid : Nat) (f : Proc → Proc)
    (hf : ∀ p, (f p).pid = p.pid) :
    hasPid (updateProc s q f) pid = hasPid s pid := by
  have hcomm : ∀ p : Proc,
      (fun r => r.pid == pid) ((fun p => if p.pid == q then f p else p) p)
        = (fun r => r.pid == pid) p := by
    intro p
    by_cases h : (p.pid == q) = true <;> simp [h, hf]
  unfold hasPid updateProc
  rw [find?_map_of_pred_comm _ _ hcomm]
  cases s.procs.find? (fun p => p.pid == pid) <;> rfl

theorem getProc_updateProc_self (s : SysState) (pid : Nat) (f : Proc → Proc)
    (hf : ∀ p, (f p).pid = p.pid) (hmem : hasPid s pid = true) :
    getProc (updateProc s pid f) pid = f (getProc s pid) := by
  rw [getProc_updateProc s pid pid f hf, if_pos]
  refine ⟨?_, hmem⟩
  rw [getProc_pid hmem]
  simp

/-! ## Claim C10: addFinishedProcess is idempotent per pid -/

/-- C10: `Scheduler::addFinishedProcess` is idempotent per pid.  Only the
first call with a given pid appends it to the finished list, records the
pid in the guard set, decrements the active count, and updates the
system by stamping the finish time and deallocating the process's
memory; a second call with the same pid (with any wall-clock time) is
the identity. -/
theorem c10_addFinishedProcess_idempotent (now now2 pid : Nat) (st : SchedState) :
    (pid ∉ st.finishedPIDs →
      (Scheduler.addFinishedProcess now pid st).finishedList = st.finishedList ++ [pid] ∧
      (Scheduler.addFinishedProcess now pid st).finishedPIDs = pid :: st.finishedPIDs ∧
      (Scheduler.addFinishedProcess now pid st).activeCount = st.activeCount - 1 ∧
      (Scheduler.addFinishedProcess now pid st).sys
        = MemoryManager.deallocate pid
            (updateProc st.sys pid (fun p => { p with finishTime := now }))) ∧
    Scheduler.addFinishedProcess now2 pid (Scheduler.addFinishedProcess now pid st)
      = Scheduler.addFinishedProcess now pid st := by
  constructor
  · intro h
    simp [Scheduler.addFinishedProcess, h]
  · by_cases h : pid ∈ st.finishedPIDs
    · simp [Scheduler.addFinishedProcess, h]
    · simp [Scheduler.addFinishedProcess, h]

/-- A small concrete scheduler state for exercising C10. -/
def c10SchedSt : SchedState :=
  { sys := initSys 64 16 [1]
    readyQueue := []
    sleepingList := []
    finishedList := []
    finishedPIDs := []
    activeCount := 1 }

/-- Witness for C10 at a concrete state: the first call appends pid 1 and
drops the active count to 0; a repeated call changes nothing. -/
theorem c10_addFinishedProcess_idempotent_witness :
    (Scheduler.addFinishedProcess 5 1 c10SchedSt).finishedList = [1] ∧
    (Scheduler.addFinishedProcess 5 1 c10SchedSt).activeCount = 0 ∧
    Scheduler.addFinishedProcess 7 1 (Scheduler.addFinishedProcess 5 1 c10SchedSt)
      = Scheduler.addFinishedProcess 5 1 c10SchedSt := by
  have h := c10_addFinishedProcess_idempotent 5 7 1 c10SchedSt
  have heff := h.1 (by decide)
  refine ⟨by simpa using heff.1, by simpa using heff.2.2.1, h.2⟩

/-! ## Claim C9: a core executes at most quantum instructions per assignment -/

theorem workerAux_executed_le (pid : Nat) : ∀ (r tick : Nat) (st : SchedState),
    (Core.workerAux pid tick st r).1 ≤ r := by
  intro r
  induction r with
  | zero => intro tick st; simp [Core.workerAux]
  | succ n ih =>
    intro tick st
    unfold Core.workerAux
    by_cases h1 : (getProc st.sys pid).finished
    · simp [h1]
    · simp only [h1]
      by_cases h2 : (getProc st.sys pid).sleeping
      · simp [h2]
      · simp only [h2]
        rcases hrun : runOneInstruction tick pid st.sys with ⟨b, sys1, err⟩
        cases b with
        | true =>
          cases err with
          | none =>
            rcases hw : Core.workerAux pid (tick + 1) { st with sys := sys1 } n with ⟨n1, st1⟩
            have hle := ih (tick + 1) { st with sys := sys1 }
            rw [hw] at hle
            simp [hrun, hw]
            omega
          | some e => simp [hrun]
        | false => simp [hrun]

/-- C9: for every core assignment with quantum `q`, the worker loop
executes at most `q` instructions before relinquishing the process, and
when exactly `q` instructions were executed and the process is neither
finished nor sleeping, the disposition is `requeueProcess`, which pushes
the process onto the back of the ready queue. -/
theorem c9_worker_quantum_bound (pid quantum tick now : Nat) (st : SchedState) :
    (Core.workerAux pid tick st quantum).1 ≤ quantum ∧
    ((Core.workerAux pid tick st quantum).1 = quantum →
      (getProc (Core.workerAux pid tick st quantum).2.sys pid).finished = false →
      Core.workerLoop pid quantum tick now st
        = ((Core.workerAux pid tick st quantum).1,
           Scheduler.requeueProcess pid (Core.workerAux pid tick st quantum).2)) ∧
    ((getProc (Core.workerAux pid tick st quantum).2.sys pid).sleeping = false →
      (Scheduler.requeueProcess pid (Core.workerAux pid tick st quantum).2).readyQueue
        = (Core.workerAux pid tick st quantum).2.readyQueue ++ [pid]) := by
  refine ⟨workerAux_executed_le pid quantum tick st, ?_, ?_⟩
  · intro hq hfin
    rcases hw : Core.workerAux pid tick st quantum with ⟨ex, st1⟩
    rw [hw] at hq hfin
    simp only at hq hfin
    unfold Core.workerLoop
    rw [hw]
    simp [hfin, hq]
  · intro hsleep
    rcases hw : Core.workerAux pid tick st quantum with ⟨ex, st1⟩
    rw [hw] at hsleep
    simp only at hsleep ⊢
    simp [Scheduler.requeueProcess, hsleep]

/-- A process with five PRINT instructions for exercising C9. -/
def c9SchedSt : SchedState :=
  { sys := withProgram 1 (List.replicate 5 ⟨4, []⟩) (initSys 64 16 [1])
    readyQueue := []
    sleepingList := []
    finishedList := []
    finishedPIDs := []
    activeCount := 1 }

/-- Witness for C9: with quantum 2 and a five-instruction process, the
worker executes exactly 2 instructions and the process ends up at the
back of the (previously empty) ready queue. -/
theorem c9_worker_quantum_bound_witness :
    (Core.workerAux 1 0 c9SchedSt 2).1 ≤ 2 ∧
    (Core.workerLoop 1 2 0 99 c9SchedSt).2.readyQueue = [1] := by
  have h := c9_worker_quantum_bound 1 2 0 99 c9SchedSt
  refine ⟨h.1, ?_⟩
  have h2 := h.2.1 (by decide) (by decide)
  have h3 := h.2.2 (by decide)
  rw [h2]
  simp only [h3]
  have : (Core.workerAux 1 0 c9SchedSt 2).2.readyQueue = [] := by decide
  rw [this]
  rfl

/-! ## Claim C6: the lazy-admission allocate cannot fail for frame capacity -/

theorem initPages_pid : ∀ (c : Nat) (p : Proc), (MemoryManager.initPages c p).pid = p.pid := by
  intro c
  induction c with
  | zero => intro p; rfl
  | succ k ih => intro p; unfold MemoryManager.initPages; simp [ih]

theorem initPages_alloc : ∀ (c : Nat) (p : Proc),
    (MemoryManager.initPages c p).allocatedMemory = p.allocatedMemory := by
  intro c
  induction c with
  | zero => intro p; rfl
  | succ k ih => intro p; unfold MemoryManager.initPages; simp [ih]

theorem initPages_entries : ∀ (c : Nat) (p : Proc) (i : Nat), i < c →
    (MemoryManager.initPages c p).pageTable (i : Int) = some (-1) ∧
    (MemoryManager.initPages c p).validBits (i : Int) = some false := by
  intro c
  induction c with
  | zero => intro p i h; omega
  | succ k ih =>
    intro p i h
    unfold MemoryManager.initPages
    by_cases hik : i = k
    · subst hik
      simp
    · have hne : (i : Int) ≠ (k : Int) := by
        simpa using hik
      simp only [if_neg hne]
      exact ih p i (by omega)

theorem initBackingPages_procs (pid w : Nat) : ∀ (c : Nat) (s : SysState),
    (MemoryManager.initBackingPages pid w c s).procs = s.procs := by
  intro c
  induction c with
  | zero => intro s; rfl
  | succ k ih => intro s; unfold MemoryManager.initBackingPages; simp [MemoryManager.bsInsert, ih]

theorem getProc_congr_procs {s s' : SysState} (h : s.procs = s'.procs) (pid : Nat) :
    getProc s pid = getProc s' pid := by
  unfold getProc
  rw [h]

theorem initBackingPages_lookup (pid w : Nat) : ∀ (c : Nat) (s : SysState) (i : Nat), i < c →
    MemoryManager.bsLookup (MemoryManager.pageIdFor pid (i : Int))
        (MemoryManager.initBackingPages pid w c s)
      = some (List.replicate w 0) := by
  intro c
  induction c with
  | zero => intro s i h; omega
  | succ k ih =>
    intro s i h
    unfold MemoryManager.initBackingPages
    by_cases hkey : MemoryManager.pageIdFor pid (i : Int) = MemoryManager.pageIdFor pid (k : Int)
    · unfold MemoryManager.bsLookup MemoryManager.bsInsert
      simp only []
      rw [hkey]
      exact assocUpdate_lookup_self _ _ _
    · have : MemoryManager.bsLookup (MemoryManager.pageIdFor pid (i : Int))
          (MemoryManager.bsInsert (MemoryManager.pageIdFor pid (k : Int))
            (List.replicate w 0) (MemoryManager.initBackingPages pid w k s))
          = MemoryManager.bsLookup (MemoryManager.pageIdFor pid (i : Int))
            (MemoryManager.initBackingPages pid w k s) := by
        unfold MemoryManager.bsLookup MemoryManager.bsInsert
        simp only []
        exact assocUpdate_lookup_ne _ _ _ hkey _
      rw [this]
      have hik : i ≠ k := fun hh => hkey (by rw [hh])
      exact ih s i (by omega)

/-- C6: the lazy-admission variant of `MemoryManager::allocateMemory`
always returns ok — with no hypothesis about free frames — records the
requested size on the process, initializes every required page-table
entry to the not-resident sentinel `-1` with a false valid bit, and
creates a zero-filled backing-store page (of `frameSize / 2` words,
i.e. `frameSize` bytes) for every required page. -/
theorem c6_allocate_lazy_always_ok (s : SysState) (pid : Nat) (requestedBytes : Int)
    (hv : isValidMemorySize requestedBytes = true)
    (hmem : hasPid s pid = true) :
    (MemoryManagerLazy.allocateMemory pid requestedBytes s).1 = true ∧
    (getProc (MemoryManagerLazy.allocateMemory pid requestedBytes s).2 pid).allocatedMemory
      = requestedBytes ∧
    (∀ i : Nat,
      i < ((requestedBytes + (s.mm.frameSize : Int) - 1) / (s.mm.frameSize : Int)).toNat →
      (getProc (MemoryManagerLazy.allocateMemory pid requestedBytes s).2 pid).pageTable (i : Int)
          = some (-1) ∧
      (getProc (MemoryManagerLazy.allocateMemory pid requestedBytes s).2 pid).validBits (i : Int)
          = some false ∧
      MemoryManager.bsLookup (MemoryManager.pageIdFor pid (i : Int))
          (MemoryManagerLazy.allocateMemory pid requestedBytes s).2
        = some (List.replicate (s.mm.frameSize / 2) 0)) := by
  unfold MemoryManagerLazy.allocateMemory
  simp only []
  set pages := ((requestedBytes + (s.mm.frameSize : Int) - 1) / (s.mm.frameSize : Int)).toNat with hpages
  set f1 : Proc → Proc := fun p => { p with allocatedMemory := requestedBytes } with hf1
  set s1 := updateProc s pid f1 with hs1
  set s2 := updateProc s1 pid (MemoryManager.initPages pages) with hs2
  have hmem1 : hasPid s1 pid = true := by
    rw [hs1, hasPid_updateProc]
    · exact hmem
    · intro p; rfl
  have hg2 : getProc s2 pid = MemoryManager.initPages pages (getProc s1 pid) := by
    rw [hs2]
    exact getProc_updateProc_self s1 pid _ (fun p => initPages_pid pages p) hmem1
  have hg1 : getProc s1 pid = f1 (getProc s pid) := by
    rw [hs1]
    exact getProc_updateProc_self s pid f1 (fun p => rfl) hmem
  have hgb : getProc (MemoryManager.initBackingPages pid (s2.mm.frameSize / 2) pages s2) pid
      = getProc s2 pid :=
    getProc_congr_procs (initBackingPages_procs pid (s2.mm.frameSize / 2) pages s2) pid
  refine ⟨by trivial, ?_, ?_⟩
  · rw [hgb, hg2, initPages_alloc, hg1]
  · intro i hi
    have hfs2 : s2.mm.frameSize = s.mm.frameSize := by rw [hs2, hs1]; rfl
    refine ⟨?_, ?_, ?_⟩
    · rw [hgb, hg2]
      exact (initPages_entries pages (getProc s1 pid) i hi).1
    · rw [hgb, hg2]
      exact (initPages_entries pages (getProc s1 pid) i hi).2
    · rw [← hfs2]
      exact initBackingPages_lookup pid (s2.mm.frameSize / 2) pages s2 i hi

/-- A system with zero physical frames (`max-overall-mem` 16 with
`mem-per-frame` 32, both powers of two accepted by the configuration
check). -/
def c6ZeroFrameSys : SysState := initSys 16 32 [1]

/-- Witness for C6: with zero free frames, allocating 64 bytes (2 pages,
exceeding the 0 free frames) still returns ok and sets up both pages. -/
theorem c6_allocate_lazy_always_ok_witness :
    (MemoryManagerLazy.allocateMemory 1 64 c6ZeroFrameSys).1 = true ∧
    MainMemory.getFreeFrames c6ZeroFrameSys.mm.mem = 0 ∧
    (getProc (MemoryManagerLazy.allocateMemory 1 64 c6ZeroFrameSys).2 1).pageTable 0
      = some (-1) ∧
    (getProc (MemoryManagerLazy.allocateMemory 1 64 c6ZeroFrameSys).2 1).validBits 1
      = some false := by
  have h := c6_allocate_lazy_always_ok c6ZeroFrameSys 1 64 (by decide) (by decide)
  have h0 := h.2.2 0 (by decide)
  have h1 := h.2.2 1 (by decide)
  exact ⟨h.1, by decide, by simpa using h0.1, by simpa using h1.2.1⟩

/-! ## Claim C7: ADD/SUB saturate in unsigned 16-bit -/

/-- The S2 scenario state: a 64-byte process whose program is
`DECLARE x 65530; ADD x x 100;`. -/
def c7SysProg : SysState :=
  withProgram 1 [⟨1, ["x", "65530"]⟩, ⟨2, ["x", "x", "100"]⟩]
    (MemoryManager.allocateMemory 1 64 (initSys 64 16 [1])).2

/-- The S2 state after the DECLARE. -/
def c7Sys1 : SysState := (runOneInstruction 0 1 c7SysProg).2.1

/-- The S2 state after the ADD. -/
def c7Sys2 : SysState := (runOneInstruction 1 1 c7Sys1).2.1

/-- C7: `ADD(dest, a, b)` / `SUB(dest, a, b)` write
`clamp(read(a) ± read(b))` to dest's address; `clamp` saturates into
unsigned 16-bit (below 0 to 0, above 65535 to 65535); and in the S2
scenario `DECLARE x 65530; ADD x x 100` leaves `read(x) = 65535`. -/
theorem c7_arith_saturating :
    (∀ (tick : Nat) (s : SysState) (pid : Nat) (d ta tb : String) (a b : Nat)
        (sa sb : SysState) (destAddr : String) (f off : Int) (s3 : SysState),
      getValue ta pid s = (.ok a, sa) →
      getValue tb pid sa = (.ok b, sb) →
      (getProc sb pid).symbolTable.lookup d = some destAddr →
      MemoryManager.translate destAddr pid sb = (.ok (f, off), s3) →
      (executeIns tick ⟨2, [d, ta, tb]⟩ pid s).1 = .ok () ∧
      (executeIns tick ⟨2, [d, ta, tb]⟩ pid s).2.mm.mem.memory
          (physKey (f * (s3.mm.frameSize : Int) + off))
        = clamp ((a : Int) + (b : Int))) ∧
    (∀ (tick : Nat) (s : SysState) (pid : Nat) (d ta tb : String) (a b : Nat)
        (sa sb : SysState) (destAddr : String) (f off : Int) (s3 : SysState),
      getValue ta pid s = (.ok a, sa) →
      getValue tb pid sa = (.ok b, sb) →
      (getProc sb pid).symbolTable.lookup d = some destAddr →
      MemoryManager.translate destAddr pid sb = (.ok (f, off), s3) →
      (executeIns tick ⟨3, [d, ta, tb]⟩ pid s).1 = .ok () ∧
      (executeIns tick ⟨3, [d, ta, tb]⟩ pid s).2.mm.mem.memory
          (physKey (f * (s3.mm.frameSize : Int) + off))
        = clamp ((a : Int) - (b : Int))) ∧
    (∀ a b : Nat, a ≤ 65535 → b ≤ 65535 →
      clamp ((a : Int) + (b : Int)) = min (a + b) 65535 ∧
      clamp ((a : Int) - (b : Int)) = a - b) ∧
    ((MemoryManager.read "0x0000" 1 c7Sys2).1 = .ok 65535 ∧
      (getProc c7Sys2 1).termination = TermReason.FINISHED_NORMALLY) := by
  refine ⟨?_, ?_, ?_, by decide, by decide⟩
  · intro tick s pid d ta tb a b sa sb destAddr f off s3 ha hb hd htr
    have hstep : executeIns tick ⟨2, [d, ta, tb]⟩ pid s
        = MemoryManager.write destAddr (clamp ((a : Int) + (b : Int))) pid sb := by
      unfold executeIns
      simp only [List.length_cons, List.length_nil, List.getD]
      norm_num
      simp only [ha, hb, hd]
    rw [hstep]
    unfold MemoryManager.write
    rw [htr]
    simp [MainMemory.writeMemory]
  · intro tick s pid d ta tb a b sa sb destAddr f off s3 ha hb hd htr
    have hstep : executeIns tick ⟨3, [d, ta, tb]⟩ pid s
        = MemoryManager.write destAddr (clamp ((a : Int) - (b : Int))) pid sb := by
      unfold executeIns
      simp only [List.length_cons, List.length_nil, List.getD]
      norm_num
      simp only [ha, hb, hd]
    rw [hstep]
    unfold MemoryManager.write
    rw [htr]
    simp [MainMemory.writeMemory]
  · intro a b ha hb
    constructor
    · unfold clamp
      rw [if_neg (by omega)]
      by_cases hs : (a : Int) + (b : Int) > 65535
      · rw [if_pos hs]
        have : 65535 ≤ a + b := by omega
        omega
      · rw [if_neg hs]
        omega
    · unfold clamp
      by_cases hn : (a : Int) - (b : Int) < 0
      · rw [if_pos hn]
        omega
      · rw [if_neg hn]
        rw [if_neg (by omega)]
        omega

/-- Witness for C7: instantiating the ADD and SUB statements in the S2
scenario state (after `DECLARE x 65530`), the stored words are 65535
(saturated) and 65430, and the clamp characterization holds at the S2
operands. -/
theorem c7_arith_saturating_witness :
    (executeIns 1 ⟨2, ["x", "x", "100"]⟩ 1 c7Sys1).2.mm.mem.memory (physKey 0) = 65535 ∧
    (executeIns 1 ⟨3, ["x", "x", "100"]⟩ 1 c7Sys1).2.mm.mem.memory (physKey 0) = 65430 ∧
    clamp ((65530 : Nat) + ((100 : Nat) : Int)) = min (65530 + 100) 65535 := by
  have hp := c7_arith_saturating
  have e1 : (getValue "x" 1 c7Sys1).1 = Except.ok 65530 := by decide
  have ha : getValue "x" 1 c7Sys1 = (Except.ok 65530, (getValue "x" 1 c7Sys1).2) := by
    rw [← e1]
  have e2 : (getValue "100" 1 (getValue "x" 1 c7Sys1).2).1 = Except.ok 100 := by decide
  have hb : getValue "100" 1 (getValue "x" 1 c7Sys1).2
      = (Except.ok 100, (getValue "100" 1 (getValue "x" 1 c7Sys1).2).2) := by
    rw [← e2]
  have e3 : (getProc (getValue "100" 1 (getValue "x" 1 c7Sys1).2).2 1).symbolTable.lookup "x"
      = some "0x0000" := by decide
  have e4 : (MemoryManager.translate "0x0000" 1
      (getValue "100" 1 (getValue "x" 1 c7Sys1).2).2).1 = Except.ok (0, 0) := by decide
  have htr : MemoryManager.translate "0x0000" 1 (getValue "100" 1 (getValue "x" 1 c7Sys1).2).2
      = (Except.ok (0, 0),
         (MemoryManager.translate "0x0000" 1 (getValue "100" 1 (getValue "x" 1 c7Sys1).2).2).2) := by
    rw [← e4]
  have hzero : (0 : Int) * (((MemoryManager.translate "0x0000" 1
      (getValue "100" 1 (getValue "x" 1 c7Sys1).2).2).2).mm.frameSize : Int) + 0 = 0 := by ring
  refine ⟨?_, ?_, ?_⟩
  · have hadd := (hp.1 1 c7Sys1 1 "x" "x" "100" 65530 100 _ _ "0x0000" 0 0 _ ha hb e3 htr).2
    rw [hzero] at hadd
    rw [hadd]
    decide
  · have hsub := (hp.2.1 1 c7Sys1 1 "x" "x" "100" 65530 100 _ _ "0x0000" 0 0 _ ha hb e3 htr).2
    rw [hzero] at hsub
    rw [hsub]
    decide
  · exact (hp.2.2.1 65530 100 (by norm_num) (by norm_num)).1

/-! ## Claim C8: re-DECLARE pushes symbol addresses out of the segment -/

/-- A 64-byte process whose program is 33 copies of `DECLARE x` (the
shell's `screen -c` path sets the allocated size before loading the
program). -/
def c8Sys : SysState :=
  withProgram 1 (List.replicate 33 ⟨1, ["x"]⟩)
    (updateProc (initSys 64 16 [1]) 1 (fun p => { p with allocatedMemory := 64 }))

/-- C8 fails on the code: `Process::execute`'s DECLARE handler advances
`symbolTableOffset_` and re-binds the name even when it is already
present, while the capacity guard checks only the table *size*.  After
33 `DECLARE x` instructions the table still has one entry, but that
entry's logical address is `0x0040` = 64, outside the symbol-table
segment `[0, 64)`; after 32 it is still inside (`0x003e` = 62).  The
claimed invariant "every address in symbol_table lies in [0, 64),
preserved by every DECLARE including one whose name is already present"
is therefore violated by the 33rd same-name DECLARE. -/
theorem c8_redeclare_escapes_segment :
    (getProc (runCount 0 32 1 0 0 c8Sys).1 1).symbolTable = [("x", "0x003e")] ∧
    stoiHex "0x003e" = .ok 62 ∧ (62 : Int) < 64 ∧
    (getProc (runCount 0 33 1 0 0 c8Sys).1 1).symbolTable = [("x", "0x0040")] ∧
    (getProc (runCount 0 33 1 0 0 c8Sys).1 1).symbolTable.length = 1 ∧
    stoiHex "0x0040" = .ok 64 ∧ ¬ ((64 : Int) < 64) := by
  refine ⟨by decide, by decide, by decide, by decide, by decide, by decide, by decide⟩

/-! ## Claim C3: a fault with no free frame and empty FIFO is not an error -/

/-- A process with 64 allocated bytes and both pages initialized to the
not-resident sentinel, in a system configured with `max-overall-mem` 16
and `mem-per-frame` 32 (both powers of two accepted by the
configuration check), so the frame table has zero frames and the FIFO
queue is empty. -/
def c3Sys : SysState :=
  { mm := { mem := MainMemory.init 16 32
            backingStore := []
            fifo := []
            pagedIn := 0
            pagedOut := 0
            frameSize := 32 }
    procs := [{ Proc.new 1 with
                allocatedMemory := 64
                pageTable := fun k => if k = 0 ∨ k = 1 then some (-1) else none
                validBits := fun k => if k = 0 ∨ k = 1 then some false else none }] }

/-- C3 fails on the cited code: with no free frame and an empty FIFO
queue, `MemoryManager::handlePageFault` silently returns without
obtaining a frame, `translate` then reads the sentinel `-1` from the
page table and returns it as the frame index, and `read` completes
(returning the word at the out-of-range physical key, i.e. 0).  No
OutOfMemory error is raised, the process stays RUNNING, no violation
address is recorded, and no page-in is counted — contradicting the
claimed OutOfMemory / TERMINATED_VIOLATION("Out of Memory")
behaviour. -/
theorem c3_oom_silently_ignored :
    MainMemory.getFreeFrameIndex c3Sys.mm.mem = -1 ∧
    c3Sys.mm.fifo = [] ∧
    (MemoryManager.translate "0" 1 c3Sys).1 = .ok (-1, 0) ∧
    (MemoryManager.read "0" 1 c3Sys).1 = .ok 0 ∧
    (getProc (MemoryManager.read "0" 1 c3Sys).2 1).termination = TermReason.RUNNING ∧
    (getProc (MemoryManager.read "0" 1 c3Sys).2 1).violationAddress = "" ∧
    (getProc (MemoryManager.read "0" 1 c3Sys).2 1).finished = false ∧
    (MemoryManager.read "0" 1 c3Sys).2.mm.pagedIn = 0 := by
  refine ⟨by decide, by decide, by decide, by decide, by decide, by decide, by decide, by decide⟩

/-! ## Claim C4: the eviction round-trip does not restore page contents -/

/-- Paging-pressure trace: two frames of 16 bytes; three processes of 16
bytes each are admitted (no frames are consumed at admission), then
each writes its page-0 word 0, forcing p3's fault to evict p1's page
and p1's re-fault to evict p2's page. -/
def c4Sys3 : SysState :=
  (MemoryManager.allocateMemory 3 16
    (MemoryManager.allocateMemory 2 16
      (MemoryManager.allocateMemory 1 16 (initSys 32 16 [1, 2, 3])).2).2).2

/-- After p1 wrote 7 to its logical word 0 (resident in frame 0). -/
def c4Sys4 : SysState := (MemoryManager.write "0x0" 7 1 c4Sys3).2

/-- After p2 wrote 9 to its logical word 0 (resident in frame 1). -/
def c4Sys5 : SysState := (MemoryManager.write "0x0" 9 2 c4Sys4).2

/-- After p3 wrote 5 to its logical word 0, evicting p1's page from
frame 0 (FIFO head). -/
def c4Sys6 : SysState := (MemoryManager.write "0x0" 5 3 c4Sys5).2

/-- C4 fails on the cited code: at the moment of eviction p1's page held
word 7 at offset 0, and that is what the dump stored in the backing
store; but the re-fault loads the page into frame 1 using the base
address string `"0x" + std::to_string(16) = "0x16"`, which
`loadPageToFrame` re-parses as hex (= 22), so the bytes land at the
wrong physical addresses and the process reads 0 instead of 7 at its
logical word 0.  The round-trip is not byte-identical. -/
theorem c4_eviction_roundtrip_broken :
    (MemoryManager.read "0x0" 1 c4Sys4).1 = .ok 7 ∧
    c4Sys6.mm.backingStore.lookup "p1_page0" = some [7, 0, 0, 0, 0, 0, 0, 0] ∧
    c4Sys6.mm.pagedOut = 1 ∧
    (getProc (MemoryManager.read "0x0" 1 c4Sys6).2 1).pageTable 0 = some 1 ∧
    (MemoryManager.read "0x0" 1 c4Sys6).1 = .ok 0 ∧
    (MemoryManager.read "0x0" 1 c4Sys6).1 ≠ (MemoryManager.read "0x0" 1 c4Sys4).1 ∧
    ("0x" ++ decString (1 * 16) = "0x16" ∧ stoiHex "0x16" = .ok 22) := by
  refine ⟨by decide, by decide, by decide, by decide, by decide, by decide, by decide, by decide⟩

/-! ## Claim C1: the translate bounds check -/

theorem hasPid_evictPage (idx : Int) (s : SysState) (pid : Nat) :
    hasPid (MemoryManager.evictPage idx s) pid = hasPid s pid := by
  unfold MemoryManager.evictPage
  by_cases h0 : MainMemory.getPageAtFrame idx s.mm.mem = ""
  · rw [if_pos h0]
  · rw [if_neg h0]
    cases hp : MemoryManager.parsePageId (MainMemory.getPageAtFrame idx s.mm.mem) with
    | none => simp only [hp]; rfl
    | some pr =>
      obtain ⟨o, n⟩ := pr
      simp only [hp]
      exact hasPid_updateProc s o pid _ (fun p => rfl)

theorem pageTable_evictPage (idx : Int) (s : SysState) (pid : Nat) :
    (getProc (MemoryManager.evictPage idx s) pid).pageTable = (getProc s pid).pageTable := by
  unfold MemoryManager.evictPage
  by_cases h0 : MainMemory.getPageAtFrame idx s.mm.mem = ""
  · rw [if_pos h0]
  · rw [if_neg h0]
    cases hp : MemoryManager.parsePageId (MainMemory.getPageAtFrame idx s.mm.mem) with
    | none => simp only [hp]; rfl
    | some pr =>
      obtain ⟨o, n⟩ := pr
      simp only [hp]
      exact getProc_proj_updateProc (fun p => p.pageTable) s o pid _ (fun p => rfl) (fun p => rfl)

theorem acquireFrame_preserves (s : SysState) (pid : Nat) :
    (getProc (MemoryManager.acquireFrame s).2 pid).pageTable = (getProc s pid).pageTable ∧
    hasPid (MemoryManager.acquireFrame s).2 pid = hasPid s pid := by
  unfold MemoryManager.acquireFrame
  by_cases hfree : MainMemory.getFreeFrameIndex s.mm.mem = -1
  · rw [if_pos hfree]
    cases hf : s.mm.fifo with
    | nil =>
      simp only [MemoryManager.getVictimFrameFIFO, hf]
      exact ⟨rfl, rfl⟩
    | cons v rest =>
      simp only [MemoryManager.getVictimFrameFIFO, hf]
      by_cases hv : v ≠ -1
      · rw [if_pos hv]
        constructor
        · rw [pageTable_evictPage]; rfl
        · rw [hasPid_evictPage]; rfl
      · rw [if_neg hv]
        exact ⟨rfl, rfl⟩
  · rw [if_neg hfree]
    exact ⟨rfl, rfl⟩

theorem installPage_procs (pid : Nat) (pageNum frameIndex : Int) (s1 : SysState) :
    (MemoryManager.installPage pid pageNum frameIndex s1).procs
      = (updateProc s1 pid (fun p =>
          { p with pageTable := fun k => if k = pageNum then some frameIndex else p.pageTable k
                   validBits := fun k => if k = pageNum then some true else p.validBits k })).procs := by
  unfold MemoryManager.installPage
  cases hbs : MemoryManager.bsLookup (MemoryManager.pageIdFor pid pageNum) s1 with
  | none => simp only [hbs]; rfl
  | some data => simp only [hbs]; rfl

theorem installPage_pageTable (pid : Nat) (pageNum frameIndex : Int) (s1 : SysState)
    (hmem : hasPid s1 pid = true) :
    (getProc (MemoryManager.installPage pid pageNum frameIndex s1) pid).pageTable pageNum
      = some frameIndex := by
  have h2 := getProc_updateProc_self s1 pid (fun p =>
    { p with pageTable := fun k => if k = pageNum then some frameIndex else p.pageTable k
             validBits := fun k => if k = pageNum then some true else p.validBits k })
    (fun p => rfl) hmem
  rw [getProc_congr_procs (installPage_procs pid pageNum frameIndex s1) pid, h2]
  simp

theorem handlePageFault_pageTable_isSome (pid : Nat) (pageNum : Int) (s : SysState)
    (hmem : hasPid s pid = true)
    (h : ((getProc s pid).pageTable pageNum).isSome = true) :
    ((getProc (MemoryManager.handlePageFault pid pageNum s) pid).pageTable pageNum).isSome
      = true := by
  unfold MemoryManager.handlePageFault
  rcases hacq : MemoryManager.acquireFrame s with ⟨fi, s1⟩
  have hpres := acquireFrame_preserves s pid
  rw [hacq] at hpres
  simp only at hpres
  simp only [hacq]
  by_cases hfi : fi ≠ -1
  · rw [if_pos hfi]
    rw [installPage_pageTable pid pageNum fi s1 (by rw [hpres.2]; exact hmem)]
    rfl
  · rw [if_neg hfi]
    rw [show (getProc s1 pid).pageTable = (getProc s pid).pageTable from hpres.1]
    exact h

theorem setTerminationReason_pid (r : TermReason) (a : String) :
    ∀ p : Proc, (Proc.setTerminationReason r a p).pid = p.pid := by
  intro p
  unfold Proc.setTerminationReason
  by_cases h : p.termination = TermReason.RUNNING
  · rw [if_pos h]
    by_cases h2 : r = TermReason.MEMORY_VIOLATION <;>
      by_cases h3 : r ≠ TermReason.RUNNING <;>
        simp [h2, h3]
  · rw [if_neg h]

theorem setTermination_marks (s : SysState) (pid : Nat) (a : String)
    (hterm : (getProc s pid).termination = TermReason.RUNNING)
    (hmem : hasPid s pid = true) :
    (getProc (setTermination s pid TermReason.MEMORY_VIOLATION a) pid).termination
        = TermReason.MEMORY_VIOLATION ∧
    (getProc (setTermination s pid TermReason.MEMORY_VIOLATION a) pid).violationAddress = a ∧
    (getProc (setTermination s pid TermReason.MEMORY_VIOLATION a) pid).finished = true := by
  unfold setTermination
  rw [getProc_updateProc_self s pid _ (setTerminationReason_pid _ _) hmem]
  simp [Proc.setTerminationReason, hterm]

theorem translate_eval_invalid (s : SysState) (pid : Nat) (a : String)
    (hparse : stoiHex a = .invalid) :
    MemoryManager.translate a pid s
      = (.error .invalidFormat, setTermination s pid TermReason.MEMORY_VIOLATION a) := by
  unfold MemoryManager.translate
  rw [hparse]

theorem translate_eval_oor (s : SysState) (pid : Nat) (a : String)
    (hparse : stoiHex a = .outOfRange) :
    MemoryManager.translate a pid s
      = (.error .invalidFormat, setTermination s pid TermReason.MEMORY_VIOLATION a) := by
  unfold MemoryManager.translate
  rw [hparse]

theorem translate_eval_oob (s : SysState) (pid : Nat) (a : String) (addr : Int)
    (hparse : stoiHex a = .ok addr)
    (hbad : addr < 0 ∨ addr ≥ (getProc s pid).allocatedMemory) :
    MemoryManager.translate a pid s
      = (.error .mav, setTermination s pid TermReason.MEMORY_VIOLATION a) := by
  unfold MemoryManager.translate
  rw [hparse]
  simp only [if_pos hbad]

theorem translate_ok_of_inbounds (s : SysState) (pid : Nat) (a : String) (addr : Int)
    (hmem : hasPid s pid = true)
    (hparse : stoiHex a = .ok addr)
    (h0 : ¬(addr < 0 ∨ addr ≥ (getProc s pid).allocatedMemory))
    (hpt : ((getProc s pid).pageTable ((addr.toNat / s.mm.frameSize : Nat) : Int)).isSome
      = true) :
    ∃ fr, (MemoryManager.translate a pid s).1
        = .ok (fr, ((addr.toNat % s.mm.frameSize : Nat) : Int)) := by
  unfold MemoryManager.translate
  rw [hparse]
  simp only [if_neg h0]
  by_cases hnf : (((getProc s pid).validBits ((addr.toNat / s.mm.frameSize : Nat) : Int)).getD
      false) = false
  · rw [if_pos hnf]
    have hsome := handlePageFault_pageTable_isSome pid _ s hmem hpt
    cases hfr : (getProc (MemoryManager.handlePageFault pid
        ((addr.toNat / s.mm.frameSize : Nat) : Int) s) pid).pageTable
        ((addr.toNat / s.mm.frameSize : Nat) : Int) with
    | none => rw [hfr] at hsome; simp at hsome
    | some fr =>
      simp only [hfr]
      exact ⟨fr, rfl⟩
  · rw [if_neg hnf]
    cases hfr : (getProc s pid).pageTable ((addr.toNat / s.mm.frameSize : Nat) : Int) with
    | none => rw [hfr] at hpt; simp at hpt
    | some fr =>
      simp only [hfr]
      exact ⟨fr, rfl⟩

/-- C1 (amended): `MemoryManager::translate` (and hence `read`/`write`)
raises a memory violation exactly when the address fails to parse as a
hexadecimal integer or the parsed value `x` satisfies `x < 0` or
`x ≥ allocated_bytes` — the source checks `addr >= allocatedMemory`,
not `addr + 1 >= allocatedMemory` as claimed; a violation marks the
process TERMINATED_VIOLATION with the faulting address; consequently
logical address `allocated_bytes - 1` is readable without violation and
`allocated_bytes` is a violation. -/
theorem c1_translate_bounds (s : SysState) (pid : Nat) (a : String)
    (hterm : (getProc s pid).termination = TermReason.RUNNING)
    (hmem : hasPid s pid = true)
    (hpt : ∀ k : Int, 0 ≤ k → k * (s.mm.frameSize : Int) < (getProc s pid).allocatedMemory →
        ((getProc s pid).pageTable k).isSome = true) :
    ((∃ e, (MemoryManager.translate a pid s).1 = Except.error e) ↔
      stoiHex a = .invalid ∨ stoiHex a = .outOfRange ∨
        (∃ x, stoiHex a = .ok x ∧ (x < 0 ∨ x ≥ (getProc s pid).allocatedMemory))) ∧
    ((∃ e, (MemoryManager.translate a pid s).1 = Except.error e) →
      (getProc (MemoryManager.translate a pid s).2 pid).termination
          = TermReason.MEMORY_VIOLATION ∧
      (getProc (MemoryManager.translate a pid s).2 pid).violationAddress = a ∧
      (getProc (MemoryManager.translate a pid s).2 pid).finished = true) ∧
    (∀ x, stoiHex a = .ok x → 0 ≤ x → x = (getProc s pid).allocatedMemory - 1 →
      ∃ v, (MemoryManager.read a pid s).1 = Except.ok v) ∧
    (∀ x, stoiHex a = .ok x → x = (getProc s pid).allocatedMemory →
      (MemoryManager.read a pid s).1 = Except.error CppErr.mav) := by
  have hkey : ∀ addr : Int, ¬(addr < 0 ∨ addr ≥ (getProc s pid).allocatedMemory) →
      ((getProc s pid).pageTable ((addr.toNat / s.mm.frameSize : Nat) : Int)).isSome = true := by
    intro addr h0
    push_neg at h0
    apply hpt
    · exact Int.natCast_nonneg _
    · have h1 : ((addr.toNat / s.mm.frameSize : Nat) : Int) * (s.mm.frameSize : Int)
          ≤ (addr.toNat : Int) := by
        exact_mod_cast Nat.div_mul_le_self addr.toNat s.mm.frameSize
      have h2 : (addr.toNat : Int) = addr := Int.toNat_of_nonneg h0.1
      omega
  cases hparse : stoiHex a with
  | invalid =>
    have heval := translate_eval_invalid s pid a hparse
    refine ⟨?_, ?_, ?_, ?_⟩
    · rw [heval]
      simp
    · intro _
      rw [heval]
      exact setTermination_marks s pid a hterm hmem
    · intro x hx
      simp at hx
    · intro x hx
      simp at hx
  | outOfRange =>
    have heval := translate_eval_oor s pid a hparse
    refine ⟨?_, ?_, ?_, ?_⟩
    · rw [heval]
      simp
    · intro _
      rw [heval]
      exact setTermination_marks s pid a hterm hmem
    · intro x hx
      simp at hx
    · intro x hx
      simp at hx
  | ok addr =>
    by_cases hbad : addr < 0 ∨ addr ≥ (getProc s pid).allocatedMemory
    · have heval := translate_eval_oob s pid a addr hparse hbad
      refine ⟨?_, ?_, ?_, ?_⟩
      · rw [heval]
        constructor
        · intro _
          exact Or.inr (Or.inr ⟨addr, rfl, hbad⟩)
        · intro _
          exact ⟨CppErr.mav, rfl⟩
      · intro _
        rw [heval]
        exact setTermination_marks s pid a hterm hmem
      · intro x hx h0 hA
        injection hx with hx
        subst hx
        rcases hbad with hb | hb <;> omega
      · intro x hx hA
        injection hx with hx
        subst hx
        unfold MemoryManager.read
        rw [heval]
    · obtain ⟨fr, hok⟩ := translate_ok_of_inbounds s pid a addr hmem hparse hbad
        (hkey addr hbad)
      rcases htr : MemoryManager.translate a pid s with ⟨r, s1⟩
      rw [htr] at hok
      simp only at hok
      refine ⟨?_, ?_, ?_, ?_⟩
      · constructor
        · intro he
          obtain ⟨e, he⟩ := he
          simp only at he
          rw [hok] at he
          simp at he
        · intro hrhs
          rcases hrhs with h | h | ⟨x, hx, hxb⟩
          · simp at h
          · simp at h
          · injection hx with hx
            subst hx
            exact absurd hxb hbad
      · intro he
        obtain ⟨e, he⟩ := he
        simp only at he
        rw [hok] at he
        simp at he
      · intro x hx h0 hA
        unfold MemoryManager.read
        rw [htr, hok]
        exact ⟨_, rfl⟩
      · intro x hx hA
        injection hx with hx
        subst hx
        exfalso
        exact hbad (Or.inr (le_of_eq hA.symm))

/-- A freshly admitted process with 64 allocated bytes in a 4-frame
system (the S4-style configuration). -/
def c1Sys : SysState := (MemoryManager.allocateMemory 1 64 (initSys 64 16 [1])).2

/-- Counterexample to C1 as stated: the claim's violation condition
`x + 1 ≥ allocated_bytes` predicts that reading logical address 0x3F
(x = 63, allocated 64) violates, but the code's check is `x ≥ 64`, so
the read completes and the process stays RUNNING. -/
theorem c1_claimed_bound_refuted :
    stoiHex "3F" = .ok 63 ∧
    (63 : Int) + 1 ≥ (getProc c1Sys 1).allocatedMemory ∧
    (MemoryManager.read "3F" 1 c1Sys).1 = .ok 0 ∧
    (getProc (MemoryManager.read "3F" 1 c1Sys).2 1).termination = TermReason.RUNNING := by
  refine ⟨by decide, by decide, by decide, by decide⟩

/-- Witness for C1: in the allocated 64-byte process, address 0x3F
(= 63 = allocated_bytes − 1) reads without violation and address 0x40
(= 64 = allocated_bytes) fails with the memory-access violation. -/
theorem c1_translate_bounds_witness :
    (∃ v, (MemoryManager.read "3F" 1 c1Sys).1 = Except.ok v) ∧
    (MemoryManager.read "40" 1 c1Sys).1 = Except.error CppErr.mav := by
  have hpt : ∀ k : Int, 0 ≤ k → k * ((c1Sys.mm.frameSize : Int)) < (getProc c1Sys 1).allocatedMemory →
      ((getProc c1Sys 1).pageTable k).isSome = true := by
    intro k hk hlt
    have hfs : ((c1Sys.mm.frameSize : Nat) : Int) = 16 := by decide
    have halloc : (getProc c1Sys 1).allocatedMemory = 64 := by decide
    rw [hfs, halloc] at hlt
    have h4 : k < 4 := by omega
    interval_cases k <;> decide
  have h1 := c1_translate_bounds c1Sys 1 "3F" (by decide) (by decide) hpt
  have h2 := c1_translate_bounds c1Sys 1 "40" (by decide) (by decide) hpt
  constructor
  · exact h1.2.2.1 63 (by decide) (by decide) (by decide)
  · exact h2.2.2.2 64 (by decide) (by decide)

/-! ## Claim C2: SLEEP semantics -/

/-- C2 (amended): executing `SLEEP(tok)` with a literal argument parsing
to `v` sets the process SLEEPING with
`wake_tick = current_tick + (v mod 2^16) mod 2^8` (the value passes
through a `uint16_t` and is cast to `uint8_t`) and ADVANCES the
instruction pointer past the SLEEP (`insCount_++` inside the SLEEP
case, and `runOneInstruction` skips its own increment while sleeping);
on resume — once the tick has reached the wake target —
`runOneInstruction` clears the sleep state in place and proceeds
exactly as from the woken state, i.e. with the instruction after the
SLEEP. -/
theorem c2_sleep_sets_and_advances (s : SysState) (pid tick : Nat) (tok : String) (v : Int)
    (hmem : hasPid s pid = true)
    (hfin : (getProc s pid).finished = false)
    (hslp : (getProc s pid).sleeping = false)
    (hlen : (getProc s pid).insCount + 1 < (getProc s pid).insList.length)
    (hins : (getProc s pid).insList.getD (getProc s pid).insCount default
      = ⟨5, [tok]⟩)
    (htok : tokenNumericLed tok = true)
    (hval : stoiDec tok = .ok v) :
    (runOneInstruction tick pid s
      = (true,
         updateProc s pid (fun q =>
           { q with sleeping := true, sleepTarget := tick + u8 (u16 v),
                    insCount := q.insCount + 1 }),
         none)) ∧
    (getProc (runOneInstruction tick pid s).2.1 pid).sleeping = true ∧
    (getProc (runOneInstruction tick pid s).2.1 pid).sleepTarget = tick + (u16 v) % 256 ∧
    (getProc (runOneInstruction tick pid s).2.1 pid).insCount
      = (getProc s pid).insCount + 1 ∧
    (∀ (t2 : Nat) (s2 : SysState), hasPid s2 pid = true →
      (getProc s2 pid).finished = false →
      (getProc s2 pid).sleeping = true →
      (getProc s2 pid).sleepTarget ≤ t2 →
      runOneInstruction t2 pid s2
        = runOneInstruction t2 pid
            (updateProc s2 pid (fun q => { q with sleeping := false, sleepTarget := 0 }))) := by
  have hgv : getValue tok pid s = (.ok (u16 v), s) := by
    unfold getValue
    rw [if_pos htok, hval]
  have hstep : executeIns tick ⟨5, [tok]⟩ pid s
      = (.ok (), updateProc s pid (fun q =>
          { q with sleeping := true, sleepTarget := tick + u8 (u16 v),
                   insCount := q.insCount + 1 })) := by
    unfold executeIns
    norm_num
    rw [hgv]
  have hg1 : getProc (updateProc s pid (fun q =>
      { q with sleeping := true, sleepTarget := tick + u8 (u16 v),
               insCount := q.insCount + 1 })) pid
      = { getProc s pid with
          sleeping := true
          sleepTarget := tick + u8 (u16 v)
          insCount := (getProc s pid).insCount + 1 } := by
    exact getProc_updateProc_self s pid _ (fun p => rfl) hmem
  have hc : ¬((getProc s pid).insCount ≥ (getProc s pid).insList.length) := by omega
  have hc2 : ¬((getProc s pid).insCount + 1 ≥ (getProc s pid).insList.length) := by omega
  have hmain : runOneInstruction tick pid s
      = (true,
         updateProc s pid (fun q =>
           { q with sleeping := true, sleepTarget := tick + u8 (u16 v),
                    insCount := q.insCount + 1 }),
         none) := by
    unfold runOneInstruction
    simp only [hfin, hslp, Bool.false_eq_true, Bool.true_eq_false, not_true, not_false_iff,
      if_false, if_true, ite_true, ite_false, if_neg hc, hins, hstep, hg1, if_neg hc2]
  refine ⟨hmain, ?_, ?_, ?_, ?_⟩
  · rw [hmain]
    simp only [hg1]
  · rw [hmain]
    simp only [hg1]
    rfl
  · rw [hmain]
    simp only [hg1]
  · intro t2 s2 hmem2 hfin2 hslp2 ht2
    have hg2 : getProc (updateProc s2 pid
        (fun q => { q with sleeping := false, sleepTarget := 0 })) pid
        = { getProc s2 pid with sleeping := false, sleepTarget := 0 } := by
      exact getProc_updateProc_self s2 pid _ (fun p => rfl) hmem2
    unfold runOneInstruction
    simp only [hg2, hfin2, hslp2, Bool.false_eq_true, Bool.true_eq_false, not_true,
      eq_self_iff_true, if_false, if_true, ite_true, ite_false, if_pos ht2]

/-- The C2 scenario: process 1 runs the two-line script
`SLEEP 5; PRINT` on a fresh 64-byte/16-byte-frame system. -/
def c2Sys : SysState :=
  withProgram 1 [⟨5, ["5"]⟩, ⟨4, []⟩] (initSys 64 16 [1])

/-- Counterexample to C2's frozen-pc reading: one `runOneInstruction`
step at tick 100 on the `SLEEP 5` at index 0 leaves the process
sleeping with wake target 105, but with `insCount = 1`: the
instruction pointer HAS advanced past the SLEEP (the claim says it
still equals 0, so that the same SLEEP re-checks on resume). -/
theorem c2_claimed_pc_frozen_refuted :
    (getProc (runOneInstruction 100 1 c2Sys).2.1 1).sleeping = true ∧
    (getProc (runOneInstruction 100 1 c2Sys).2.1 1).sleepTarget = 105 ∧
    (getProc (runOneInstruction 100 1 c2Sys).2.1 1).insCount = 1 ∧
    (getProc (runOneInstruction 100 1 c2Sys).2.1 1).insCount ≠ 0 := by
  decide

/-- Witness for C2's amended theorem at the concrete `c2Sys` scenario:
tick 100, `SLEEP 5` at index 0. -/
theorem c2_sleep_sets_and_advances_witness :
    (runOneInstruction 100 1 c2Sys
      = (true,
         updateProc c2Sys 1 (fun q =>
           { q with sleeping := true, sleepTarget := 105,
                    insCount := q.insCount + 1 }),
         none)) ∧
    (getProc (runOneInstruction 100 1 c2Sys).2.1 1).sleepTarget = 100 + (u16 5) % 256 := by
  have h := c2_sleep_sets_and_advances c2Sys 1 100 "5" 5 (by decide) (by decide)
    (by decide) (by decide) (by rfl) (by decide) (by rfl)
  exact ⟨h.1, h.2.2.1⟩

/-! ## Claim C5: FOR/END iteration count -/

/-- A body instruction that is control-neutral: it executes without an
exception and leaves the process's control fields (pc, instruction
list, loop stack, sleep and finished flags) untouched, as every
non-FOR/END, non-SLEEP instruction of a well-formed body does. -/
def CtrlNeutral (i : Instruction) : Prop :=
  ∀ (tick pid : Nat) (s : SysState), hasPid s pid = true →
    (executeIns tick i pid s).1 = Except.ok () ∧
    hasPid (executeIns tick i pid s).2 pid = true ∧
    (getProc (executeIns tick i pid s).2 pid).insCount = (getProc s pid).insCount ∧
    (getProc (executeIns tick i pid s).2 pid).insList = (getProc s pid).insList ∧
    (getProc (executeIns tick i pid s).2 pid).loopStack = (getProc s pid).loopStack ∧
    (getProc (executeIns tick i pid s).2 pid).sleeping = (getProc s pid).sleeping ∧
    (getProc (executeIns tick i pid s).2 pid).finished = (getProc s pid).finished

theorem ctrlNeutral_print_nil : CtrlNeutral ⟨4, []⟩ := by
  intro tick pid s hmem
  have hE : executeIns tick ⟨4, []⟩ pid s
      = (.ok (), updateProc s pid (fun q => { q with logs := q.logs ++ [""] })) := by
    unfold executeIns
    norm_num
    rfl
  rw [hE]
  dsimp only
  have hg := getProc_updateProc_self s pid
    (fun q => { q with logs := q.logs ++ [""] }) (fun p => rfl) hmem
  refine ⟨rfl, ?_, ?_, ?_, ?_, ?_, ?_⟩
  · rw [hasPid_updateProc s pid pid (fun q => { q with logs := q.logs ++ [""] })
      (fun p => rfl)]
    exact hmem
  all_goals rw [hg]

/-- `runCount` yields a zero count from any state that cannot execute a
body instruction: a finished process, or an awake process whose pc has
run off the end of the program. -/
theorem runCount_done (tick fuel pid lo hi : Nat) (s : SysState)
    (h : (getProc s pid).finished = true ∨
      ((getProc s pid).sleeping = false ∧
        (getProc s pid).insCount ≥ (getProc s pid).insList.length)) :
    (runCount tick fuel pid lo hi s).2 = 0 := by
  cases fuel with
  | zero => rfl
  | succ f =>
    unfold runCount
    by_cases hf : (getProc s pid).finished = true
    · simp [hf]
    · rcases h with h | ⟨hslp, hend⟩
      · exact absurd h hf
      · have hrun : runOneInstruction tick pid s
            = (false, setTermination s pid .FINISHED_NORMALLY "", none) := by
          unfold runOneInstruction
          simp only [hf, hslp, Bool.false_eq_true, Bool.true_eq_false, not_true,
            not_false_iff, if_false, if_true, ite_true, ite_false, if_pos hend]
        simp [hf, hrun]

/-- Unfolding one productive `runCount` step. -/
theorem runCount_succ_true (tick f pid lo hi : Nat) (s s1 : SysState)
    (hf : (getProc s pid).finished = false)
    (hrun : runOneInstruction tick pid s = (true, s1, none)) :
    runCount tick (f + 1) pid lo hi s
      = ((runCount (tick + 1) f pid lo hi s1).1,
         (runCount (tick + 1) f pid lo hi s1).2
           + (if lo ≤ (getProc s pid).insCount ∧ (getProc s pid).insCount < hi
              then 1 else 0)) := by
  rcases hE : runCount (tick + 1) f pid lo hi s1 with ⟨a, b⟩
  conv_lhs => unfold runCount
  simp only [hf, Bool.false_eq_true, if_false, ite_false, hrun, hE]

/-- One `runOneInstruction` step on an awake, unfinished process whose
current instruction is control-neutral and is not the last one: the
step succeeds and only advances the pc. -/
theorem step_neutral (tick pid j : Nat) (s : SysState)
    (hmem : hasPid s pid = true)
    (hfin : (getProc s pid).finished = false)
    (hslp : (getProc s pid).sleeping = false)
    (hpc : (getProc s pid).insCount = j)
    (hlt : j + 1 < (getProc s pid).insList.length)
    (hneu : CtrlNeutral ((getProc s pid).insList.getD j default)) :
    ∃ s' : SysState,
      runOneInstruction tick pid s = (true, s', none) ∧
      hasPid s' pid = true ∧
      (getProc s' pid).finished = false ∧
      (getProc s' pid).sleeping = false ∧
      (getProc s' pid).insCount = j + 1 ∧
      (getProc s' pid).insList = (getProc s pid).insList ∧
      (getProc s' pid).loopStack = (getProc s pid).loopStack := by
  obtain ⟨hok, hmem1, hc1, hl1, hs1, hsl1, hf1⟩ := hneu tick pid s hmem
  set E := executeIns tick ((getProc s pid).insList.getD j default) pid s with hEdef
  have hE : E = (Except.ok (), E.2) := by
    rcases hEp : E with ⟨e1, e2⟩
    rw [hEp] at hok
    simp only [] at hok
    rw [hok]
  have hinc := getProc_updateProc_self E.2 pid
    (fun q => { q with insCount := q.insCount + 1 }) (fun p => rfl) hmem1
  refine ⟨updateProc E.2 pid (fun q => { q with insCount := q.insCount + 1 }),
    ?_, ?_, ?_, ?_, ?_, ?_, ?_⟩
  · unfold runOneInstruction
    have hnl : ¬((getProc s pid).insCount ≥ (getProc s pid).insList.length) := by
      omega
    have hnl2 : ¬((getProc (updateProc E.2 pid
        (fun q => { q with insCount := q.insCount + 1 })) pid).insCount
          ≥ (getProc (updateProc E.2 pid
              (fun q => { q with insCount := q.insCount + 1 })) pid).insList.length) := by
      rw [hinc]
      simp only []
      rw [hc1, hl1, hpc]
      omega
    have hnl3 : ¬(j ≥ (getProc s pid).insList.length) := by omega
    simp only [hfin, hslp, Bool.false_eq_true, Bool.true_eq_false, not_true,
      not_false_iff, if_false, if_true, ite_true, ite_false, if_neg hnl, hpc,
      if_neg hnl3]
    rw [← hEdef, hE]
    simp only [hf1, hsl1, hfin, hslp, Bool.false_eq_true, Bool.true_eq_false,
      not_true, not_false_iff, if_false, if_true, ite_true, ite_false,
      if_neg hnl2]
  · rw [hasPid_updateProc E.2 pid pid (fun q => { q with insCount := q.insCount + 1 })
      (fun p => rfl)]
    exact hmem1
  · rw [hinc]
    show (getProc E.2 pid).finished = false
    rw [hf1]; exact hfin
  · rw [hinc]
    show (getProc E.2 pid).sleeping = false
    rw [hsl1]; exact hslp
  · rw [hinc]
    show (getProc E.2 pid).insCount + 1 = j + 1
    rw [hc1, hpc]
  · rw [hinc]
    show (getProc E.2 pid).insList = (getProc s pid).insList
    exact hl1
  · rw [hinc]
    show (getProc E.2 pid).loopStack = (getProc s pid).loopStack
    exact hs1

/-- Running `k` consecutive control-neutral body instructions from pc
`j` (with `j + k = 1 + B`) advances the pc to the END slot `1 + B`,
preserves the loop stack and contributes exactly `k` to the body
count. -/
theorem bodyRun (pid B : Nat) :
    ∀ (k tick fuel j : Nat) (s : SysState),
      hasPid s pid = true →
      (getProc s pid).finished = false →
      (getProc s pid).sleeping = false →
      (getProc s pid).insCount = j →
      1 ≤ j → j + k = 1 + B →
      (getProc s pid).insList.length = B + 2 →
      (∀ m, 1 ≤ m → m < 1 + B →
        CtrlNeutral ((getProc s pid).insList.getD m default)) →
      k ≤ fuel →
      ∃ s' : SysState,
        hasPid s' pid = true ∧
        (getProc s' pid).finished = false ∧
        (getProc s' pid).sleeping = false ∧
        (getProc s' pid).insCount = 1 + B ∧
        (getProc s' pid).insList = (getProc s pid).insList ∧
        (getProc s' pid).loopStack = (getProc s pid).loopStack ∧
        runCount tick fuel pid 1 (1 + B) s
          = ((runCount (tick + k) (fuel - k) pid 1 (1 + B) s').1,
             (runCount (tick + k) (fuel - k) pid 1 (1 + B) s').2 + k) := by
  intro k
  induction k with
  | zero =>
    intro tick fuel j s hmem hfin hslp hpc hj1 hjk hlen hneu hfl
    refine ⟨s, hmem, hfin, hslp, ?_, rfl, rfl, ?_⟩
    · rw [hpc]; omega
    · simp
  | succ k ih =>
    intro tick fuel j s hmem hfin hslp hpc hj1 hjk hlen hneu hfl
    obtain ⟨f, rfl⟩ : ∃ f, fuel = f + 1 := ⟨fuel - 1, by omega⟩
    have hlt : j + 1 < (getProc s pid).insList.length := by rw [hlen]; omega
    have hneuj : CtrlNeutral ((getProc s pid).insList.getD j default) :=
      hneu j hj1 (by omega)
    obtain ⟨s1, hrun, hmem1, hfin1, hslp1, hpc1, hlist1, hls1⟩ :=
      step_neutral tick pid j s hmem hfin hslp hpc hlt hneuj
    have hstep := runCount_succ_true tick f pid 1 (1 + B) s s1 hfin hrun
    have hcnt : (if 1 ≤ (getProc s pid).insCount ∧ (getProc s pid).insCount < 1 + B
        then 1 else 0) = 1 := by
      rw [hpc, if_pos (by omega : 1 ≤ j ∧ j < 1 + B)]
    obtain ⟨s', h1, h2, h3, h4, h5, h6, h7⟩ :=
      ih (tick + 1) f (j + 1) s1 hmem1 hfin1 hslp1 hpc1 (by omega) (by omega)
        (by rw [hlist1, hlen])
        (fun m hm1 hm2 => by rw [hlist1]; exact hneu m hm1 hm2)
        (by omega)
    refine ⟨s', h1, h2, h3, h4, ?_, ?_, ?_⟩
    · rw [h5, hlist1]
    · rw [h6, hls1]
    · rw [hstep, h7, hcnt]
      have e1 : tick + 1 + k = tick + (k + 1) := by omega
      have e2 : f - k = f + 1 - (k + 1) := by omega
      rw [e1, e2]
      simp [Nat.add_assoc]

theorem setTerminationReason_ctrl (r : TermReason) (a : String) (p : Proc) :
    (Proc.setTerminationReason r a p).insCount = p.insCount ∧
    (Proc.setTerminationReason r a p).insList = p.insList ∧
    (Proc.setTerminationReason r a p).sleeping = p.sleeping := by
  unfold Proc.setTerminationReason
  by_cases h : p.termination = TermReason.RUNNING
  · rw [if_pos h]
    by_cases h2 : r = TermReason.MEMORY_VIOLATION <;>
      by_cases h3 : r ≠ TermReason.RUNNING <;> simp [h2, h3]
  · rw [if_neg h]; exact ⟨rfl, rfl, rfl⟩

/-- The END step while the loop counter (after the wrapping `uint16_t`
decrement) is still positive: jump back to the loop body start. -/
theorem endStep_jump (tick pid B c : Nat) (rest : List LoopState) (s : SysState)
    (hmem : hasPid s pid = true)
    (hfin : (getProc s pid).finished = false)
    (hslp : (getProc s pid).sleeping = false)
    (hpc : (getProc s pid).insCount = 1 + B)
    (hlen : (getProc s pid).insList.length = B + 2)
    (hins : (getProc s pid).insList.getD (1 + B) default = ⟨7, []⟩)
    (hls : (getProc s pid).loopStack = ⟨1, c⟩ :: rest)
    (hc : c ≠ 1) (hcb : c < 65536) :
    ∃ s' : SysState,
      runOneInstruction tick pid s = (true, s', none) ∧
      hasPid s' pid = true ∧
      (getProc s' pid).finished = false ∧
      (getProc s' pid).sleeping = false ∧
      (getProc s' pid).insCount = 1 ∧
      (getProc s' pid).insList = (getProc s pid).insList ∧
      (getProc s' pid).loopStack = ⟨1, (c + 65535) % 65536⟩ :: rest := by
  have hr : 0 < (c + 65535) % 65536 := by omega
  have hE : executeIns tick ⟨7, []⟩ pid s
      = (.ok (), updateProc s pid (fun q =>
          { q with loopStack := ⟨1, (c + 65535) % 65536⟩ :: rest
                   insCount := 1 - 1 })) := by
    unfold executeIns
    norm_num
    rw [hls]
    simp only [if_pos hr]
  set s1 := updateProc s pid (fun q =>
    { q with loopStack := ⟨1, (c + 65535) % 65536⟩ :: rest
             insCount := 1 - 1 }) with hs1def
  have hmem1 : hasPid s1 pid = true := by
    rw [hs1def, hasPid_updateProc s pid pid (fun q =>
      { q with loopStack := ⟨1, (c + 65535) % 65536⟩ :: rest
               insCount := 1 - 1 }) (fun p => rfl)]
    exact hmem
  have hg1 : getProc s1 pid
      = { getProc s pid with
          loopStack := ⟨1, (c + 65535) % 65536⟩ :: rest
          insCount := 1 - 1 } := by
    rw [hs1def]
    exact getProc_updateProc_self s pid _ (fun p => rfl) hmem
  have hinc := getProc_updateProc_self s1 pid
    (fun q => { q with insCount := q.insCount + 1 }) (fun p => rfl) hmem1
  refine ⟨updateProc s1 pid (fun q => { q with insCount := q.insCount + 1 }),
    ?_, ?_, ?_, ?_, ?_, ?_, ?_⟩
  · unfold runOneInstruction
    have hnl : ¬((getProc s pid).insCount ≥ (getProc s pid).insList.length) := by
      rw [hpc, hlen]; omega
    have hnl2 : ¬((getProc (updateProc s1 pid
        (fun q => { q with insCount := q.insCount + 1 })) pid).insCount
          ≥ (getProc (updateProc s1 pid
              (fun q => { q with insCount := q.insCount + 1 })) pid).insList.length) := by
      rw [hinc]
      show ¬((getProc s1 pid).insCount + 1 ≥ (getProc s1 pid).insList.length)
      rw [hg1]
      show ¬(1 - 1 + 1 ≥ (getProc s pid).insList.length)
      rw [hlen]; omega
    simp only [hfin, hslp, Bool.false_eq_true, Bool.true_eq_false, not_true,
      not_false_iff, if_false, if_true, ite_true, ite_false, if_neg hnl, hpc,
      hins, hE, hg1]
    simp only [hfin, hslp, Bool.false_eq_true, Bool.true_eq_false, not_true,
      not_false_iff, if_false, if_true, ite_true, ite_false, if_neg hnl2]
    rw [if_neg (show ¬(1 + B ≥ (getProc s pid).insList.length) by rw [hlen]; omega)]
  · rw [hasPid_updateProc s1 pid pid (fun q => { q with insCount := q.insCount + 1 })
      (fun p => rfl)]
    exact hmem1
  · rw [hinc]
    show (getProc s1 pid).finished = false
    rw [hg1]; exact hfin
  · rw [hinc]
    show (getProc s1 pid).sleeping = false
    rw [hg1]; exact hslp
  · rw [hinc]
    show (getProc s1 pid).insCount + 1 = 1
    rw [hg1]
  · rw [hinc]
    show (getProc s1 pid).insList = (getProc s pid).insList
    rw [hg1]
  · rw [hinc]
    show (getProc s1 pid).loopStack = ⟨1, (c + 65535) % 65536⟩ :: rest
    rw [hg1]

/-- The END step when the wrapping decrement hits zero (stored count 1):
the loop frame is popped, the pc moves past the END and the process
terminates normally; the resulting state can execute no further body
instruction. -/
theorem endStep_pop (tick pid B : Nat) (rest : List LoopState) (s : SysState)
    (hmem : hasPid s pid = true)
    (hfin : (getProc s pid).finished = false)
    (hslp : (getProc s pid).sleeping = false)
    (hpc : (getProc s pid).insCount = 1 + B)
    (hlen : (getProc s pid).insList.length = B + 2)
    (hins : (getProc s pid).insList.getD (1 + B) default = ⟨7, []⟩)
    (hls : (getProc s pid).loopStack = ⟨1, 1⟩ :: rest) :
    ∃ s' : SysState,
      runOneInstruction tick pid s = (true, s', none) ∧
      (getProc s' pid).sleeping = false ∧
      (getProc s' pid).insCount ≥ (getProc s' pid).insList.length := by
  have hE : executeIns tick ⟨7, []⟩ pid s
      = (.ok (), updateProc s pid (fun q => { q with loopStack := rest })) := by
    unfold executeIns
    norm_num
    rw [hls]
    norm_num
  set s1 := updateProc s pid (fun q => { q with loopStack := rest }) with hs1def
  have hmem1 : hasPid s1 pid = true := by
    rw [hs1def, hasPid_updateProc s pid pid (fun q => { q with loopStack := rest })
      (fun p => rfl)]
    exact hmem
  have hg1 : getProc s1 pid = { getProc s pid with loopStack := rest } := by
    rw [hs1def]
    exact getProc_updateProc_self s pid _ (fun p => rfl) hmem
  set s2 := updateProc s1 pid (fun q => { q with insCount := q.insCount + 1 }) with hs2def
  have hmem2 : hasPid s2 pid = true := by
    rw [hs2def, hasPid_updateProc s1 pid pid (fun q => { q with insCount := q.insCount + 1 })
      (fun p => rfl)]
    exact hmem1
  have hg2 : getProc s2 pid
      = { getProc s1 pid with insCount := (getProc s1 pid).insCount + 1 } := by
    rw [hs2def]
    exact getProc_updateProc_self s1 pid _ (fun p => rfl) hmem1
  have hend : (getProc s2 pid).insCount ≥ (getProc s2 pid).insList.length := by
    rw [hg2]
    show (getProc s1 pid).insCount + 1 ≥ (getProc s1 pid).insList.length
    rw [hg1]
    show (getProc s pid).insCount + 1 ≥ (getProc s pid).insList.length
    rw [hpc, hlen]; omega
  have hg3 := getProc_updateProc_self s2 pid
    (Proc.setTerminationReason .FINISHED_NORMALLY "")
    (setTerminationReason_pid _ _) hmem2
  obtain ⟨hct, hcl, hcs⟩ :=
    setTerminationReason_ctrl TermReason.FINISHED_NORMALLY "" (getProc s2 pid)
  refine ⟨setTermination s2 pid .FINISHED_NORMALLY "", ?_, ?_, ?_⟩
  · unfold runOneInstruction
    have hnl : ¬(1 + B ≥ (getProc s pid).insList.length) := by rw [hlen]; omega
    simp only [hfin, hslp, Bool.false_eq_true, Bool.true_eq_false, not_true,
      not_false_iff, if_false, if_true, ite_true, ite_false, hpc, if_neg hnl,
      hins, hE, hg1]
    simp only [hfin, hslp, Bool.false_eq_true, Bool.true_eq_false, not_true,
      not_false_iff, if_false, if_true, ite_true, ite_false, if_pos hend]
  · unfold setTermination
    rw [hg3, hcs, hg2]
    show (getProc s1 pid).sleeping = false
    rw [hg1]; exact hslp
  · unfold setTermination
    rw [hg3, hct, hcl]
    exact hend

/-- Iterating the loop from the start of the body with stored `uint16_t`
count `c` executes the body `I = (if c = 0 then 65536 else c)` times:
the wrapping decrement in END makes a stored 0 run the body 65536
times. -/
theorem loopRun (pid B : Nat) :
    ∀ (I : Nat), ∀ (c tick fuel : Nat) (s : SysState),
      hasPid s pid = true →
      (getProc s pid).finished = false →
      (getProc s pid).sleeping = false →
      (getProc s pid).insCount = 1 →
      (getProc s pid).loopStack = [⟨1, c⟩] →
      c < 65536 →
      (if c = 0 then 65536 else c) = I →
      (getProc s pid).insList.length = B + 2 →
      (getProc s pid).insList.getD (1 + B) default = ⟨7, []⟩ →
      (∀ m, 1 ≤ m → m < 1 + B →
        CtrlNeutral ((getProc s pid).insList.getD m default)) →
      I * (B + 1) ≤ fuel →
      (runCount tick fuel pid 1 (1 + B) s).2 = I * B := by
  intro I
  induction I using Nat.strong_induction_on with
  | _ I ih =>
    intro c tick fuel s hmem hfin hslp hpc hls hcb hI hlen hend hneu hfl
    have hI1 : 1 ≤ I := by
      by_cases h0 : c = 0
      · rw [if_pos h0] at hI; omega
      · rw [if_neg h0] at hI; omega
    have hBfuel : B + 1 ≤ fuel := by
      have h2 : B + 1 ≤ I * (B + 1) := Nat.le_mul_of_pos_left (B + 1) hI1
      omega
    obtain ⟨se, he1, he2, he3, he4, he5, he6, he7⟩ :=
      bodyRun pid B B tick fuel 1 s hmem hfin hslp hpc (by omega) (by omega)
        hlen hneu (by omega)
    have hfb : fuel - B = (fuel - B - 1) + 1 := by omega
    have hlene : (getProc se pid).insList.length = B + 2 := by rw [he5, hlen]
    have hende : (getProc se pid).insList.getD (1 + B) default = ⟨7, []⟩ := by
      rw [he5]; exact hend
    have hlse : (getProc se pid).loopStack = ⟨1, c⟩ :: [] := by rw [he6, hls]
    by_cases hc1 : c = 1
    · -- final iteration: pop, terminate
      subst hc1
      obtain ⟨s3, hr3, hs3, he3b⟩ :=
        endStep_pop (tick + B) pid B [] se he1 he2 he3 he4 hlene hende hlse
      have hstep := runCount_succ_true (tick + B) (fuel - B - 1) pid 1 (1 + B)
        se s3 he2 hr3
      have hdone := runCount_done (tick + B + 1) (fuel - B - 1) pid 1 (1 + B) s3
        (Or.inr ⟨hs3, he3b⟩)
      have hcnt : (if 1 ≤ (getProc se pid).insCount ∧ (getProc se pid).insCount < 1 + B
          then 1 else 0) = 0 := by
        rw [he4, if_neg (by omega : ¬(1 ≤ 1 + B ∧ 1 + B < 1 + B))]
      have hIeq : I = 1 := by norm_num at hI; omega
      rw [he7]
      show (runCount (tick + B) (fuel - B) pid 1 (1 + B) se).2 + B = I * B
      rw [hfb, hstep]
      show (runCount (tick + B + 1) (fuel - B - 1) pid 1 (1 + B) s3).2
          + (if 1 ≤ (getProc se pid).insCount ∧ (getProc se pid).insCount < 1 + B
             then 1 else 0) + B = I * B
      rw [hdone, hcnt, hIeq]
      omega
    · -- continue: jump back with the decremented counter
      obtain ⟨s4, hr4, h41, h42, h43, h44, h45, h46⟩ :=
        endStep_jump (tick + B) pid B c [] se he1 he2 he3 he4 hlene hende hlse
          hc1 hcb
      have hstep := runCount_succ_true (tick + B) (fuel - B - 1) pid 1 (1 + B)
        se s4 he2 hr4
      have hcnt : (if 1 ≤ (getProc se pid).insCount ∧ (getProc se pid).insCount < 1 + B
          then 1 else 0) = 0 := by
        rw [he4, if_neg (by omega : ¬(1 ≤ 1 + B ∧ 1 + B < 1 + B))]
      have hc0ne : (c + 65535) % 65536 ≠ 0 := by omega
      have hI2 : (if (c + 65535) % 65536 = 0 then 65536 else (c + 65535) % 65536)
          = I - 1 := by
        rw [if_neg hc0ne]
        by_cases h0 : c = 0
        · rw [if_pos h0] at hI; subst h0; omega
        · rw [if_neg h0] at hI; omega
      have hIsplit : I * (B + 1) = (I - 1) * (B + 1) + (B + 1) := by
        have h2 : I = (I - 1) + 1 := by omega
        calc I * (B + 1) = ((I - 1) + 1) * (B + 1) := by rw [← h2]
        _ = (I - 1) * (B + 1) + (B + 1) := by ring
      have hfl2 : (I - 1) * (B + 1) ≤ fuel - B - 1 := by
        rw [hIsplit] at hfl
        generalize (I - 1) * (B + 1) = X at hfl ⊢
        omega
      have hlen4 : (getProc s4 pid).insList.length = B + 2 := by rw [h45, hlene]
      have hend4 : (getProc s4 pid).insList.getD (1 + B) default = ⟨7, []⟩ := by
        rw [h45]; exact hende
      have hneu4 : ∀ m, 1 ≤ m → m < 1 + B →
          CtrlNeutral ((getProc s4 pid).insList.getD m default) := by
        intro m hm1 hm2
        rw [h45, he5]
        exact hneu m hm1 hm2
      have hrec := ih (I - 1) (by omega) ((c + 65535) % 65536) (tick + B + 1)
        (fuel - B - 1) s4 h41 h42 h43 h44 h46 (by omega) hI2 hlen4 hend4 hneu4 hfl2
      rw [he7]
      show (runCount (tick + B) (fuel - B) pid 1 (1 + B) se).2 + B = I * B
      rw [hfb, hstep]
      show (runCount (tick + B + 1) (fuel - B - 1) pid 1 (1 + B) s4).2
          + (if 1 ≤ (getProc se pid).insCount ∧ (getProc se pid).insCount < 1 + B
             then 1 else 0) + B = I * B
      rw [hrec, hcnt]
      have h2 : I = (I - 1) + 1 := by omega
      calc (I - 1) * B + 0 + B = ((I - 1) + 1) * B := by ring
      _ = I * B := by rw [← h2]

theorem getD_append_len {α : Type} (l l2 : List α) (d : α) :
    (l ++ l2).getD l.length d = l2.getD 0 d := by
  induction l with
  | nil => rfl
  | cons a t ih => exact ih

theorem getD_append_lt {α : Type} (l l2 : List α) (d : α) (k : Nat)
    (h : k < l.length) : (l ++ l2).getD k d = l.getD k d := by
  induction l generalizing k with
  | nil => simp at h
  | cons a t ih =>
    cases k with
    | zero => rfl
    | succ k2 => exact ih k2 (by simp at h; omega)

theorem getD_mem_of_lt {α : Type} (l : List α) (d : α) (k : Nat)
    (h : k < l.length) : l.getD k d ∈ l := by
  induction l generalizing k with
  | nil => simp at h
  | cons a t ih =>
    cases k with
    | zero => exact List.mem_cons_self a t
    | succ k2 => exact List.mem_cons_of_mem a (ih k2 (by simp at h; omega))

theorem u16_lt (v : Int) : u16 v < 65536 := by
  unfold u16
  have h1 : 0 ≤ Int.emod v 65536 := Int.emod_nonneg v (by norm_num)
  have h2 : Int.emod v 65536 < 65536 := Int.emod_lt_of_pos v (by norm_num)
  omega

/-- **Claim C5.** For the program `FOR(tok); body; END` (body
control-neutral, loop depth 0), the body is executed exactly
`(if n = 0 then 65536 else min n 1000)` times where `n` is the parsed
repeat count as a `uint16_t` — NOT `min(n, 1000)` with 0 iterations at
`n = 0`: FOR pushes a frame even for a zero count, and END's wrapping
`uint16_t` decrement turns the stored 0 into 65535 further passes. -/
theorem c5_for_loop_count (s : SysState) (pid tick fuel : Nat) (tok : String)
    (v : Int) (body : List Instruction)
    (hmem : hasPid s pid = true)
    (hfin : (getProc s pid).finished = false)
    (hslp : (getProc s pid).sleeping = false)
    (hpc : (getProc s pid).insCount = 0)
    (hls : (getProc s pid).loopStack = [])
    (hprog : (getProc s pid).insList = ⟨6, [tok]⟩ :: body ++ [⟨7, []⟩])
    (hneu : ∀ i ∈ body, CtrlNeutral i)
    (htok : tokenNumericLed tok = true)
    (hval : stoiDec tok = .ok v)
    (hfuel : 1 + (if u16 v = 0 then 65536 else min (u16 v) 1000)
        * (body.length + 1) ≤ fuel) :
    (runCount tick fuel pid 1 (1 + body.length) s).2
      = (if u16 v = 0 then 65536 else min (u16 v) 1000) * body.length := by
  have hgv : getValue tok pid s = (.ok (u16 v), s) := by
    unfold getValue
    rw [if_pos htok, hval]
  have hlen : (getProc s pid).insList.length = body.length + 2 := by
    rw [hprog]
    simp [List.length_append]
  have hins0 : (getProc s pid).insList.getD 0 default = ⟨6, [tok]⟩ := by
    rw [hprog]; rfl
  have hinsEnd : (getProc s pid).insList.getD (1 + body.length) default
      = ⟨7, []⟩ := by
    rw [hprog]
    have h1 : 1 + body.length = body.length + 1 := by omega
    rw [h1]
    show (body ++ [(⟨7, []⟩ : Instruction)]).getD body.length default = ⟨7, []⟩
    rw [getD_append_len]
    rfl
  have hneuM : ∀ m, 1 ≤ m → m < 1 + body.length →
      CtrlNeutral ((getProc s pid).insList.getD m default) := by
    intro m hm1 hm2
    obtain ⟨k, rfl⟩ : ∃ k, m = k + 1 := ⟨m - 1, by omega⟩
    have hk : k < body.length := by omega
    rw [hprog]
    show CtrlNeutral ((body ++ [(⟨7, []⟩ : Instruction)]).getD k default)
    rw [getD_append_lt body _ default k hk]
    exact hneu _ (getD_mem_of_lt body default k hk)
  -- the FOR step
  have hnls : ¬((getProc s pid).loopStack.length ≥ 3) := by rw [hls]; decide
  have hE : executeIns tick ⟨6, [tok]⟩ pid s
      = (.ok (), updateProc s pid (fun q =>
          { q with loopStack :=
              ⟨q.insCount + 1, if u16 v > 1000 then 1000 else u16 v⟩
                :: q.loopStack })) := by
    unfold executeIns
    norm_num
    rw [hgv]
    simp only [if_neg hnls]
  set rc : Nat := if u16 v > 1000 then 1000 else u16 v with hrcdef
  set sF := updateProc s pid (fun q =>
    { q with loopStack := ⟨q.insCount + 1, rc⟩ :: q.loopStack }) with hsFdef
  have hmemF : hasPid sF pid = true := by
    rw [hsFdef, hasPid_updateProc s pid pid (fun q =>
      { q with loopStack := ⟨q.insCount + 1, rc⟩ :: q.loopStack }) (fun p => rfl)]
    exact hmem
  have hgF : getProc sF pid
      = { getProc s pid with
          loopStack := ⟨(getProc s pid).insCount + 1, rc⟩
            :: (getProc s pid).loopStack } := by
    rw [hsFdef]
    exact getProc_updateProc_self s pid _ (fun p => rfl) hmem
  set s1 := updateProc sF pid (fun q => { q with insCount := q.insCount + 1 })
    with hs1def
  have hmem1 : hasPid s1 pid = true := by
    rw [hs1def, hasPid_updateProc sF pid pid (fun q =>
      { q with insCount := q.insCount + 1 }) (fun p => rfl)]
    exact hmemF
  have hg1 : getProc s1 pid
      = { getProc sF pid with insCount := (getProc sF pid).insCount + 1 } := by
    rw [hs1def]
    exact getProc_updateProc_self sF pid _ (fun p => rfl) hmemF
  have hrun : runOneInstruction tick pid s = (true, s1, none) := by
    unfold runOneInstruction
    have hnl : ¬(0 ≥ (getProc s pid).insList.length) := by rw [hlen]; omega
    have hnl2 : ¬((getProc s1 pid).insCount ≥ (getProc s1 pid).insList.length) := by
      rw [hg1]
      show (getProc sF pid).insCount + 1 ≥ (getProc sF pid).insList.length → False
      rw [hgF]
      show (getProc s pid).insCount + 1 ≥ (getProc s pid).insList.length → False
      rw [hpc, hlen]; omega
    simp only [hfin, hslp, Bool.false_eq_true, Bool.true_eq_false, not_true,
      not_false_iff, if_false, if_true, ite_true, ite_false, hpc, if_neg hnl,
      hins0, hE, ← hsFdef, ← hs1def, hgF]
    simp only [hfin, hslp, Bool.false_eq_true, Bool.true_eq_false, not_true,
      not_false_iff, if_false, if_true, ite_true, ite_false, if_neg hnl2,
      ← hs1def]
  -- the loop invariant holds at s1
  have hpc1 : (getProc s1 pid).insCount = 1 := by
    rw [hg1]
    show (getProc sF pid).insCount + 1 = 1
    rw [hgF]
    show (getProc s pid).insCount + 1 = 1
    rw [hpc]
  have hls1 : (getProc s1 pid).loopStack = [⟨1, rc⟩] := by
    rw [hg1]
    show (getProc sF pid).loopStack = [⟨1, rc⟩]
    rw [hgF]
    show ⟨(getProc s pid).insCount + 1, rc⟩ :: (getProc s pid).loopStack
        = [⟨1, rc⟩]
    rw [hpc, hls]
  have hlist1 : (getProc s1 pid).insList = (getProc s pid).insList := by
    rw [hg1]
    show (getProc sF pid).insList = (getProc s pid).insList
    rw [hgF]
  have hfin1 : (getProc s1 pid).finished = false := by
    rw [hg1]
    show (getProc sF pid).finished = false
    rw [hgF]
    exact hfin
  have hslp1 : (getProc s1 pid).sleeping = false := by
    rw [hg1]
    show (getProc sF pid).sleeping = false
    rw [hgF]
    exact hslp
  have hrcb : rc < 65536 := by
    rw [hrcdef]
    have := u16_lt v
    by_cases h : u16 v > 1000
    · rw [if_pos h]; omega
    · rw [if_neg h]; omega
  have hIrc : (if rc = 0 then 65536 else rc)
      = (if u16 v = 0 then 65536 else min (u16 v) 1000) := by
    rw [hrcdef]
    by_cases h0 : u16 v = 0
    · rw [h0]; norm_num
    · by_cases h : u16 v > 1000
      · rw [if_pos h, if_neg h0]
        rw [if_neg (by omega : ¬(1000 : Nat) = 0)]
        omega
      · rw [if_neg h, if_neg h0, if_neg h0]
        omega
  obtain ⟨f, rfl⟩ : ∃ f, fuel = f + 1 := ⟨fuel - 1, by omega⟩
  have hstep := runCount_succ_true tick f pid 1 (1 + body.length) s s1 hfin hrun
  have hcnt : (if 1 ≤ (getProc s pid).insCount
      ∧ (getProc s pid).insCount < 1 + body.length then 1 else 0) = 0 := by
    rw [hpc, if_neg (by omega : ¬(1 ≤ 0 ∧ 0 < 1 + body.length))]
  have hrec := loopRun pid body.length
    (if u16 v = 0 then 65536 else min (u16 v) 1000) rc (tick + 1) f s1
    hmem1 hfin1 hslp1 hpc1 hls1 hrcb hIrc
    (by rw [hlist1, hlen])
    (by rw [hlist1]; exact hinsEnd)
    (fun m hm1 hm2 => by rw [hlist1]; exact hneuM m hm1 hm2)
    (by omega)
  rw [hstep]
  show (runCount (tick + 1) f pid 1 (1 + body.length) s1).2
      + (if 1 ≤ (getProc s pid).insCount
         ∧ (getProc s pid).insCount < 1 + body.length then 1 else 0)
      = (if u16 v = 0 then 65536 else min (u16 v) 1000) * body.length
  rw [hrec, hcnt]
  exact Nat.add_zero _

/-- The C5 counterexample scenario: `FOR(0); PRINT; END`. -/
def c5Sys : SysState :=
  withProgram 1 [⟨6, ["0"]⟩, ⟨4, []⟩, ⟨7, []⟩] (initSys 64 16 [1])

/-- Counterexample to C5's `n = 0` case: with repeat count 0 the loop
is NOT skipped — already within the first 4 steps the body `PRINT` has
executed twice (it will go on to execute 65536 times), where the claim
requires 0 body executions. -/
theorem c5_claimed_zero_skip_refuted :
    (runCount 0 4 1 1 2 c5Sys).2 = 2 ∧ (2 : Nat) ≠ 0 := by
  constructor
  · decide
  · decide

/-- The C5 witness scenario: `FOR(3); PRINT; END`. -/
def c5WSys : SysState :=
  withProgram 1 [⟨6, ["3"]⟩, ⟨4, []⟩, ⟨7, []⟩] (initSys 64 16 [1])

/-- Witness for C5's amended theorem: `FOR(3)` around a single PRINT
executes the body exactly 3 times. -/
theorem c5_for_loop_count_witness :
    (runCount 0 8 1 1 2 c5WSys).2 = 3 := by
  have h := c5_for_loop_count c5WSys 1 0 8 "3" 3 [⟨4, []⟩]
    (by decide) (by decide) (by decide) (by decide) (by decide) (by rfl)
    (by
      intro i hi
      rw [List.mem_singleton] at hi
      rw [hi]
      exact ctrlNeutral_print_nil)
    (by decide) (by rfl) (by decide)
  exact h
